import Mathlib

/-!
Verification of the multi-agent analytics/SEO query system.

Shallow embedding of the field/column resolver, format selector, the
analytics and SEO pipelines, and the orchestrator's multi-agent
aggregation, together with theorems checking the specified behaviour.

Strings are modelled by Lean `String`; Python dicts by association
lists; the opaque LLM / GA4 / Sheets collaborators by explicit outcome
parameters.  Python float ratios are modelled exactly as unnormalised
fractions (`Ratio` below): every similarity ratio is a rational with a
tiny denominator, so float comparison against the cutoffs 0.4 / 0.5 /
0.8 agrees with exact rational comparison (distinct ratios differ by
far more than double-precision rounding error).
-/

/-! ## Exact fractions standing in for Python floats -/

/-- An exact non-negative fraction `num / den` with a positive
denominator, used for difflib similarity ratios. -/
structure Ratio where
  num : Nat
  den : Nat
  den_pos : 0 < den

/-- The rational value of a `Ratio`. -/
def Ratio.toRat (p : Ratio) : ℚ := (p.num : ℚ) / (p.den : ℚ)

/-- Value comparison of two ratios (float `<=`). -/
def Ratio.rle (p q : Ratio) : Prop := p.num * q.den ≤ q.num * p.den

/-- Strict value comparison of two ratios (float `<`). -/
def Ratio.rlt (p q : Ratio) : Prop := p.num * q.den < q.num * p.den

/-- Value equality of two ratios (float `==`). -/
def Ratio.req (p q : Ratio) : Prop := p.num * q.den = q.num * p.den

instance (p q : Ratio) : Decidable (p.rle q) := by unfold Ratio.rle; infer_instance

instance (p q : Ratio) : Decidable (p.rlt q) := by unfold Ratio.rlt; infer_instance

instance (p q : Ratio) : Decidable (p.req q) := by unfold Ratio.req; infer_instance

theorem Ratio.rle_iff (p q : Ratio) : p.rle q ↔ p.toRat ≤ q.toRat := by
  unfold Ratio.rle Ratio.toRat
  rw [div_le_div_iff₀ (by exact_mod_cast p.den_pos) (by exact_mod_cast q.den_pos)]
  exact_mod_cast Iff.rfl

theorem Ratio.rlt_iff (p q : Ratio) : p.rlt q ↔ p.toRat < q.toRat := by
  unfold Ratio.rlt Ratio.toRat
  rw [div_lt_div_iff₀ (by exact_mod_cast p.den_pos) (by exact_mod_cast q.den_pos)]
  exact_mod_cast Iff.rfl

theorem Ratio.req_iff (p q : Ratio) : p.req q ↔ p.toRat = q.toRat := by
  unfold Ratio.req Ratio.toRat
  rw [div_eq_div_iff (Nat.cast_ne_zero.mpr p.den_pos.ne') (Nat.cast_ne_zero.mpr q.den_pos.ne')]
  exact_mod_cast Iff.rfl

/-- The 0.4 suggestion cutoff. -/
def cutoff04 : Ratio := ⟨2, 5, by omega⟩

/-- The 0.5 cutoff used by the analytics validator. -/
def cutoff05 : Ratio := ⟨1, 2, by omega⟩

/-- The 0.8 fuzzy acceptance threshold of the SEO resolver. -/
def cutoff08 : Ratio := ⟨4, 5, by omega⟩

/-! ## Kernel-evaluable string primitives

Core's `String.toLower`, `String.trim`, `==` and `≤` are implemented on
byte positions and do not reduce in the kernel, so the embedding uses
the following character-list implementations with the same meaning. -/

/-- String equality as a computable Bool (same meaning as `=`). -/
def strEqB (a b : String) : Bool := a.data == b.data

theorem strEqB_iff (a b : String) : strEqB a b = true ↔ a = b := by
  unfold strEqB
  constructor
  · intro h
    cases a; cases b
    exact congrArg String.mk (by simpa using h)
  · intro h
    subst h
    simp

/-- Python str.lower(). -/
def strLower (s : String) : String := ⟨s.data.map Char.toLower⟩

/-- Python str.strip(): remove leading and trailing whitespace. -/
def strTrim (s : String) : String :=
  ⟨((s.data.dropWhile Char.isWhitespace).reverse.dropWhile Char.isWhitespace).reverse⟩

/-- Lexicographic code-point order on character lists (Python string
`<=`). -/
def lexLeB : List Char → List Char → Bool
  | [], _ => true
  | _ :: _, [] => false
  | a :: as, b :: bs =>
    if a.toNat = b.toNat then lexLeB as bs else decide (a.toNat < b.toNat)

theorem lexLeB_total : ∀ as bs : List Char, lexLeB as bs = true ∨ lexLeB bs as = true := by
  intro as
  induction as with
  | nil => intro bs; exact Or.inl rfl
  | cons a as ih =>
    intro bs
    cases bs with
    | nil => exact Or.inr rfl
    | cons b bs =>
      by_cases h : a.toNat = b.toNat
      · have h' : b.toNat = a.toNat := h.symm
        rcases ih bs with h2 | h2
        · exact Or.inl (by simp only [lexLeB, if_pos h]; exact h2)
        · exact Or.inr (by simp only [lexLeB, if_pos h']; exact h2)
      · rcases Nat.lt_or_ge a.toNat b.toNat with h2 | h2
        · exact Or.inl (by simp only [lexLeB, if_neg h]; simpa using h2)
        · have h' : ¬ b.toNat = a.toNat := fun hh => h hh.symm
          have h3 : b.toNat < a.toNat := lt_of_le_of_ne h2 (fun hh => h hh.symm)
          exact Or.inr (by simp only [lexLeB, if_neg h']; simpa using h3)

theorem lexLeB_trans : ∀ as bs cs : List Char,
    lexLeB as bs = true → lexLeB bs cs = true → lexLeB as cs = true := by
  intro as
  induction as with
  | nil => intro bs cs _ _; rfl
  | cons a as ih =>
    intro bs cs hab hbc
    cases bs with
    | nil => simp [lexLeB] at hab
    | cons b bs =>
      cases cs with
      | nil => simp [lexLeB] at hbc
      | cons c cs =>
        by_cases h1 : a.toNat = b.toNat
        · by_cases h2 : b.toNat = c.toNat
          · have h3 : a.toNat = c.toNat := h1.trans h2
            simp only [lexLeB, h1, if_pos rfl] at hab
            simp only [lexLeB, h2, if_pos rfl] at hbc
            simp only [lexLeB, h3, if_pos rfl]
            exact ih bs cs (by simpa using hab) (by simpa using hbc)
          · simp only [lexLeB, if_neg h2, decide_eq_true_eq] at hbc
            have h3 : a.toNat < c.toNat := by omega
            simp only [lexLeB, if_neg (show ¬ a.toNat = c.toNat by omega)]
            simpa using h3
        · simp only [lexLeB, if_neg h1, decide_eq_true_eq] at hab
          by_cases h2 : b.toNat = c.toNat
          · have h3 : a.toNat < c.toNat := by omega
            simp only [lexLeB, if_neg (show ¬ a.toNat = c.toNat by omega)]
            simpa using h3
          · simp only [lexLeB, if_neg h2, decide_eq_true_eq] at hbc
            have h3 : a.toNat < c.toNat := by omega
            simp only [lexLeB, if_neg (show ¬ a.toNat = c.toNat by omega)]
            simpa using h3

/-- Python string `<=` on `String`. -/
def strLeB (a b : String) : Bool := lexLeB a.data b.data

/-- Python str.startswith. -/
def strStartsB (s pre : String) : Bool := pre.data.isPrefixOf s.data

/-! ## difflib: SequenceMatcher and get_close_matches -/

/-- Indices at which character `c` occurs in `b` (difflib's b2j entry,
in increasing order). -/
def charIndices (c : Char) (b : List Char) : List Nat :=
  (List.range b.length).filter (fun j => b.getD j (Char.ofNat 1) == c)

/-- State of difflib's find_longest_match search. -/
structure FLM where
  besti : Nat
  bestj : Nat
  bestsize : Nat
deriving Repr, DecidableEq

/-- Lookup in the j2len association map, defaulting to 0. -/
def lookupJ (m : List (Nat × Nat)) (j : Nat) : Nat :=
  match m.find? (fun p => p.1 == j) with
  | some p => p.2
  | none => 0

/-- Inner loop of find_longest_match over the b-indices of one
a-character, building newj2len and updating the best block.  Indices
below `blo` are skipped (continue); since the index list is increasing,
skipping indices `≥ bhi` is the same as Python's break. -/
def flmInner (i : Nat) (js : List Nat) (blo bhi : Nat) (j2len : List (Nat × Nat))
    (st : FLM) : List (Nat × Nat) × FLM :=
  js.foldl
    (fun acc j =>
      if j < blo then acc
      else if bhi ≤ j then acc
      else
        let k := (if j = 0 then 0 else lookupJ j2len (j - 1)) + 1
        let st' := if k > acc.2.bestsize then FLM.mk (i + 1 - k) (j + 1 - k) k else acc.2
        ((j, k) :: acc.1, st'))
    ([], st)

/-- Dynamic-programming phase of find_longest_match over a[alo:ahi] and
b[blo:bhi]. -/
def flmLoop (a b : List Char) (alo ahi blo bhi : Nat) : FLM :=
  ((List.range' alo (ahi - alo)).foldl
    (fun (acc : List (Nat × Nat) × FLM) i =>
      flmInner i (charIndices (a.getD i (Char.ofNat 0)) b) blo bhi acc.1 acc.2)
    ([], FLM.mk alo blo 0)).2

/-- Leftward extension loop of find_longest_match (the is-not-junk case;
with no junk characters the predicate is always satisfied). -/
def extendL (a b : List Char) (alo blo : Nat) : Nat → FLM → FLM
  | 0, st => st
  | fuel + 1, st =>
    if alo < st.besti ∧ blo < st.bestj ∧
        a.getD (st.besti - 1) (Char.ofNat 0) = b.getD (st.bestj - 1) (Char.ofNat 1) then
      extendL a b alo blo fuel (FLM.mk (st.besti - 1) (st.bestj - 1) (st.bestsize + 1))
    else st

/-- Rightward extension loop of find_longest_match. -/
def extendR (a b : List Char) (ahi bhi : Nat) : Nat → FLM → FLM
  | 0, st => st
  | fuel + 1, st =>
    if st.besti + st.bestsize < ahi ∧ st.bestj + st.bestsize < bhi ∧
        a.getD (st.besti + st.bestsize) (Char.ofNat 0) =
          b.getD (st.bestj + st.bestsize) (Char.ofNat 1) then
      extendR a b ahi bhi fuel (FLM.mk st.besti st.bestj (st.bestsize + 1))
    else st

/-- difflib find_longest_match (no junk, no autojunk: the inputs are
short lowercase field names, far below the 200-character autojunk
threshold). -/
def findLongestMatch (a b : List Char) (alo ahi blo bhi : Nat) : FLM :=
  let st := flmLoop a b alo ahi blo bhi
  let st := extendL a b alo blo st.besti st
  extendR a b ahi bhi (ahi - (st.besti + st.bestsize)) st

/-- Total size of the matching blocks found by the recursive
get_matching_blocks traversal.  The fuel only bounds the recursion
depth; each recursive call strictly shrinks the spans, so the initial
fuel `|a| + |b| + 1` is never exhausted. -/
def matchedTotal (a b : List Char) : Nat → Nat × Nat × Nat × Nat → Nat
  | 0, _ => 0
  | fuel + 1, (alo, ahi, blo, bhi) =>
    let m := findLongestMatch a b alo ahi blo bhi
    if m.bestsize = 0 then 0
    else
      matchedTotal a b fuel (alo, m.besti, blo, m.bestj) + m.bestsize +
        matchedTotal a b fuel (m.besti + m.bestsize, ahi, m.bestj + m.bestsize, bhi)

/-- Number of matched characters between the two sequences. -/
def seqMatches (a b : List Char) : Nat :=
  matchedTotal a b (a.length + b.length + 1) (0, a.length, 0, b.length)

/-- difflib's _calculate_ratio. -/
def calcRatio (m len : Nat) : Ratio :=
  if h : len = 0 then ⟨1, 1, by omega⟩ else ⟨2 * m, len, Nat.pos_of_ne_zero h⟩

/-- SequenceMatcher(None, a, b).ratio(). -/
def seqRatio (a b : List Char) : Ratio :=
  calcRatio (seqMatches a b) (a.length + b.length)

/-- Size of the multiset intersection of the two character sequences
(the matches count underlying quick_ratio). -/
def msetInter (a b : List Char) : Nat :=
  (a.dedup.map (fun c => min (a.count c) (b.count c))).sum

/-- SequenceMatcher.quick_ratio(). -/
def quickRatio (a b : List Char) : Ratio :=
  calcRatio (msetInter a b) (a.length + b.length)

/-- SequenceMatcher.real_quick_ratio(). -/
def realQuickRatio (a b : List Char) : Ratio :=
  calcRatio (min a.length b.length) (a.length + b.length)

/-- The (ratio, possibility) pairs surviving get_close_matches's cutoff
chain; as in difflib, `a` is the possibility and `b` the word. -/
def gcmScored (word : String) (poss : List String) (cutoff : Ratio) :
    List (Ratio × String) :=
  poss.filterMap (fun x =>
    let a := x.data
    let b := word.data
    if cutoff.rle (realQuickRatio a b) ∧ cutoff.rle (quickRatio a b) ∧
        cutoff.rle (seqRatio a b) then
      some (seqRatio a b, x)
    else none)

/-- The descending (score, string) order that heapq.nlargest applies to
(ratio, x) pairs: compare the float scores first, tie-break on the
string. -/
def scoredDesc (p q : Ratio × String) : Prop :=
  q.1.rlt p.1 ∨ (p.1.req q.1 ∧ strLeB q.2 p.2 = true)

instance : DecidableRel scoredDesc := fun p q => by
  unfold scoredDesc; infer_instance

instance : IsTotal (Ratio × String) scoredDesc := by
  constructor
  intro a b
  rcases lt_trichotomy a.1.toRat b.1.toRat with h | h | h
  · exact Or.inr (Or.inl ((Ratio.rlt_iff _ _).2 h))
  · rcases lexLeB_total a.2.data b.2.data with h2 | h2
    · exact Or.inr (Or.inr ⟨(Ratio.req_iff _ _).2 h.symm, h2⟩)
    · exact Or.inl (Or.inr ⟨(Ratio.req_iff _ _).2 h, h2⟩)
  · exact Or.inl (Or.inl ((Ratio.rlt_iff _ _).2 h))

instance : IsTrans (Ratio × String) scoredDesc := by
  constructor
  intro a b c hab hbc
  rcases hab with h1 | ⟨h1, h1'⟩
  · rcases hbc with h2 | ⟨h2, h2'⟩
    · exact Or.inl ((Ratio.rlt_iff _ _).2
        (lt_trans ((Ratio.rlt_iff _ _).1 h2) ((Ratio.rlt_iff _ _).1 h1)))
    · exact Or.inl ((Ratio.rlt_iff _ _).2
        (by rw [← (Ratio.req_iff _ _).1 h2]; exact (Ratio.rlt_iff _ _).1 h1))
  · rcases hbc with h2 | ⟨h2, h2'⟩
    · exact Or.inl ((Ratio.rlt_iff _ _).2
        (by rw [(Ratio.req_iff _ _).1 h1]; exact (Ratio.rlt_iff _ _).1 h2))
    · exact Or.inr ⟨(Ratio.req_iff _ _).2
        (((Ratio.req_iff _ _).1 h1).trans ((Ratio.req_iff _ _).1 h2)),
        lexLeB_trans _ _ _ h2' h1'⟩

/-- difflib.get_close_matches(word, possibilities, n, cutoff). -/
def getCloseMatches (word : String) (poss : List String) (n : Nat) (cutoff : Ratio) :
    List String :=
  (((gcmScored word poss cutoff).insertionSort scoredDesc).take n).map (fun p => p.2)

/-- First candidate whose lowercased form is the given match and which
is not yet in the result list. -/
def firstCand (m : String) (cands result : List String) : Option String :=
  cands.find? (fun c => strEqB (strLower c) m && !(result.any (strEqB c)))

/-- Map lowercased matches back to original-case candidates, skipping
duplicates (the nested for/if/break loop shared by the SEO resolver and
the analytics validator). -/
def mapBack (cands : List String) : List String → List String → List String
  | [], result => result
  | m :: ms, result =>
    match firstCand m cands result with
    | some c => mapBack cands ms (result ++ [c])
    | none => mapBack cands ms result

example : seqMatches "sessions".data "users".data = 3 := by decide
example : (seqRatio "sessions".data "users".data).num = 6 := by decide
example : (seqRatio "sessions".data "users".data).den = 13 := by decide
example : (seqRatio "users".data "activeusers".data).num = 10 := by decide
example : msetInter "sessions".data "users".data = 3 := by decide
example : getCloseMatches "users" ["sessions"] 3 cutoff04 = ["sessions"] := by decide
example : getCloseMatches "users" ["sessions"] 3 cutoff05 = [] := by decide

/-! ## SEO Agent: semantic alias map and column resolver -/

/-- The apostrophe character used when quoting names in messages. -/
def apos : String := ⟨[Char.ofNat 39]⟩

/-- Quote a name in single quotes, as the agents do in f-strings. -/
def quoted (s : String) : String := apos ++ s ++ apos

/-- Python's ", ".join. -/
def joinComma : List String → String
  | [] => ""
  | [x] => x
  | x :: xs => x ++ ", " ++ joinComma xs

/-- SEOAgent.COLUMN_ALIASES: user term (lowercase) to Screaming Frog
column name. -/
def COLUMN_ALIASES : List (String × String) := [
  ("url", "Address"), ("urls", "Address"), ("address", "Address"),
  ("page", "Address"), ("pages", "Address"), ("link", "Address"),
  ("links", "Address"),
  ("title", "Title 1"), ("page title", "Title 1"), ("titles", "Title 1"),
  ("title tag", "Title 1"), ("title tags", "Title 1"), ("title 1", "Title 1"),
  ("title length", "Title 1 Length"), ("title len", "Title 1 Length"),
  ("meta description", "Meta Description 1"),
  ("meta descriptions", "Meta Description 1"),
  ("description", "Meta Description 1"), ("descriptions", "Meta Description 1"),
  ("meta desc", "Meta Description 1"),
  ("meta description 1", "Meta Description 1"),
  ("meta description length", "Meta Description 1 Length"),
  ("description length", "Meta Description 1 Length"),
  ("h1", "H1-1"), ("h1s", "H1-1"), ("h1 tag", "H1-1"), ("h1 tags", "H1-1"),
  ("heading", "H1-1"), ("headings", "H1-1"), ("h1-1", "H1-1"),
  ("h1 length", "H1-1 Length"),
  ("h2", "H2-1"), ("h2s", "H2-1"), ("h2-1", "H2-1"),
  ("status", "Status Code"), ("status code", "Status Code"),
  ("http status", "Status Code"), ("response code", "Status Code"),
  ("status codes", "Status Code"),
  ("indexable", "Indexability"), ("indexability", "Indexability"),
  ("index status", "Indexability"), ("indexed", "Indexability"),
  ("indexability status", "Indexability Status"),
  ("word count", "Word Count"), ("words", "Word Count"),
  ("content length", "Word Count"),
  ("canonical", "Canonical Link Element 1"),
  ("canonical url", "Canonical Link Element 1"),
  ("canonical link", "Canonical Link Element 1"),
  ("redirect", "Redirect URL"), ("redirect url", "Redirect URL"),
  ("redirects", "Redirect URL"), ("redirect to", "Redirect URL"),
  ("content type", "Content Type"), ("content", "Content Type"),
  ("type", "Content Type"),
  ("inlinks", "Inlinks"), ("internal links", "Inlinks"),
  ("outlinks", "Outlinks"), ("external links", "Outlinks"),
  ("unique inlinks", "Unique Inlinks"), ("unique outlinks", "Unique Outlinks"),
  ("size", "Size (Bytes)"), ("page size", "Size (Bytes)"),
  ("response time", "Response Time"), ("load time", "Response Time"),
  ("crawl depth", "Crawl Depth"), ("depth", "Crawl Depth"),
  ("level", "Crawl Depth")]

/-- SEOAgent._fuzzy_match's best-candidate fold: keep the first
candidate whose ratio strictly beats the running best (which starts at
0.0 with no match). -/
def fuzzyFold (termLower : String) (cands : List String) : Option String × Ratio :=
  cands.foldl
    (fun acc c =>
      let r := seqRatio termLower.data (strLower c).data
      if acc.2.rlt r then (some c, r) else acc)
    (none, ⟨0, 1, by omega⟩)

/-- SEOAgent._fuzzy_match: best fuzzy match, accepted only at ratio
≥ 0.8. -/
def fuzzyMatch (term : String) (cands : List String) : Option String :=
  if cands.isEmpty then none
  else
    let best := fuzzyFold (strLower term) cands
    if cutoff08.rle best.2 then best.1 else none

/-- SEOAgent._get_suggestions: top-3 close matches at the looser 0.4
cutoff, mapped back to original-case column names. -/
def getSuggestions (term : String) (cands : List String) (n : Nat) : List String :=
  if cands.isEmpty then []
  else mapBack cands (getCloseMatches (strLower term) (cands.map strLower) n cutoff04) []

/-- The error text built by SEOAgent._resolve_single_column on failure. -/
def unknownFieldMsg (userField : String) (suggestions cols : List String) : String :=
  let suggestionText :=
    if suggestions.isEmpty then "" else " Did you mean: " ++ joinComma suggestions ++ "?"
  "Unknown field " ++ quoted userField ++ "." ++ suggestionText ++
    " Available columns include: " ++ joinComma (cols.take 10) ++
    (if cols.length > 10 then "..." else "")

/-- Result of SEOAgent._resolve_single_column (the returned status
dict). -/
inductive ColResolution
  | resolved (column : String) (warning : Option String)
  | failed (error : String)
deriving Repr, DecidableEq

/-- Steps 2-4 of _resolve_single_column: direct case-insensitive match
against the actual columns, then fuzzy match, then failure with
suggestions. -/
def resolveNonAlias (cols : List String) (userField key : String) : ColResolution :=
  match cols.find? (fun col => strEqB (strLower col) key) with
  | some col => .resolved col none
  | none =>
    match fuzzyMatch userField cols with
    | some fz =>
      .resolved fz (some ("Interpreted " ++ quoted userField ++ " as " ++ quoted fz ++
        " (fuzzy match)"))
    | none => .failed (unknownFieldMsg userField (getSuggestions userField cols 3) cols)

/-- SEOAgent._resolve_single_column: alias lookup first (with fuzzy
rescue of a stale alias target), then exact, then fuzzy, then failure. -/
def resolveSingleColumn (cols : List String) (userField : String) : ColResolution :=
  let key := strTrim (strLower userField)
  match (COLUMN_ALIASES.find? (fun p => strEqB p.1 key)).map (fun p => p.2) with
  | some target =>
    if cols.any (strEqB target) then .resolved target none
    else
      match fuzzyMatch target cols with
      | some fz =>
        .resolved fz (some ("Mapped " ++ quoted userField ++ " to " ++ quoted fz ++
          " (via alias)"))
      | none => resolveNonAlias cols userField key
  | none => resolveNonAlias cols userField key

/-! ## Analytics Agent: allowlists and field validation -/

/-- AnalyticsAgent.CORE_METRICS (name, description). -/
def CORE_METRICS : List (String × String) := [
  ("activeUsers", "Users who had an engaged session"),
  ("newUsers", "Number of first-time users"),
  ("sessions", "Total number of sessions"),
  ("screenPageViews", "Total page/screen views"),
  ("bounceRate", "Percentage of single-page sessions"),
  ("averageSessionDuration", "Average session length in seconds"),
  ("sessionsPerUser", "Average sessions per user"),
  ("engagedSessions", "Sessions with engagement"),
  ("engagementRate", "Percentage of engaged sessions")]

/-- AnalyticsAgent.EXTENDED_METRICS (name, description). -/
def EXTENDED_METRICS : List (String × String) := [
  ("eventCount", "Total number of events"),
  ("conversions", "Total conversions"),
  ("totalRevenue", "Total revenue from purchases"),
  ("ecommercePurchases", "Number of purchases"),
  ("transactions", "Total transactions"),
  ("itemRevenue", "Revenue from items"),
  ("addToCarts", "Add to cart events"),
  ("checkouts", "Checkout events"),
  ("itemsViewed", "Items viewed"),
  ("itemsPurchased", "Items purchased")]

/-- AnalyticsAgent.EXTENDED_TRIGGERS. -/
def EXTENDED_TRIGGERS : List String := [
  "revenue", "sales", "transactions", "purchase", "ecommerce",
  "e-commerce", "conversions", "convert", "events", "event count",
  "cart", "checkout", "order", "buy", "bought", "sold", "money",
  "income", "earnings", "item"]

/-- AnalyticsAgent.CORE_DIMENSIONS (name, description). -/
def CORE_DIMENSIONS : List (String × String) := [
  ("pagePath", "Page URL path"),
  ("pageTitle", "Page title"),
  ("deviceCategory", "Device type (desktop/mobile/tablet)"),
  ("country", "User country"),
  ("city", "User city"),
  ("date", "Date (YYYYMMDD format)"),
  ("sessionSource", "Traffic source"),
  ("sessionMedium", "Traffic medium"),
  ("sessionCampaignName", "Campaign name"),
  ("browser", "Browser name"),
  ("operatingSystem", "Operating system"),
  ("language", "User language"),
  ("landingPage", "First page in session")]

/-- AnalyticsAgent.EXTENDED_DIMENSIONS (name, description). -/
def EXTENDED_DIMENSIONS : List (String × String) := [
  ("eventName", "Event name"),
  ("transactionId", "Transaction ID"),
  ("itemName", "Product/item name"),
  ("itemCategory", "Product category"),
  ("itemBrand", "Product brand")]

/-- The close_matches list computed by AnalyticsAgent._validate_field
(difflib.get_close_matches over the lowercased allowlist, n=3,
cutoff=0.5). -/
def analyticsCloseMatches (field : String) (validFields : List String) : List String :=
  getCloseMatches (strLower field) (validFields.map strLower) 3 cutoff05

/-- The Did-you-mean suggestion list of _validate_field (close matches
mapped back to original case). -/
def analyticsSuggestions (field : String) (validFields : List String) : List String :=
  mapBack validFields (analyticsCloseMatches field validFields) []

/-- AnalyticsAgent._validate_field: allowlist membership, otherwise a
ValidationError whose message carries close-match suggestions at
cutoff 0.5 (or sample field names when there is none). -/
def validateField (field : String) (validFields : List String) (fieldType : String) :
    Except String String :=
  if validFields.any (strEqB field) then .ok field
  else
    if (analyticsCloseMatches field validFields).isEmpty then
      .error (fieldType ++ " " ++ quoted field ++ " is not recognized. Valid " ++
        strLower fieldType ++ "s include: " ++
        joinComma ((validFields.take 5).map quoted) ++
        ", and more. Please check GA4 documentation for exact field names.")
    else
      .error (fieldType ++ " " ++ quoted field ++ " is not valid. Did you mean: " ++
        joinComma ((analyticsSuggestions field validFields).map quoted) ++
        "? Please use exact GA4 field names.")

example :
    resolveSingleColumn ["Content", "Content Type"] "content" =
      .resolved "Content Type" none := by decide
example :
    resolveSingleColumn ["Content", "Other"] "Content" = .resolved "Content" none := by
  decide
example :
    validateField "users" (CORE_METRICS.map (fun p => p.1)) "Metric" =
      .error ("Metric " ++ quoted "users" ++ " is not valid. Did you mean: " ++
        joinComma (["newUsers", "activeUsers"].map quoted) ++
        "? Please use exact GA4 field names.") := by rfl

/-! ## Response Formatter: payload model and format selection -/

/-- JSON-like payload values (Python dict / list / scalar trees). -/
inductive Jv
  | null
  | bool (v : Bool)
  | num (v : Int)
  | str (v : String)
  | arr (items : List Jv)
  | obj (fields : List (String × Jv))

/-- Python dict lookup in an association-list payload. -/
def lookupKey (d : List (String × Jv)) (k : String) : Option Jv :=
  (d.find? (fun p => strEqB p.1 k)).map (fun p => p.2)

/-- Python len() on a payload value, when defined (len of anything else
raises TypeError, modelled as `none`). -/
def pyLen : Jv → Option Nat
  | .arr l => some l.length
  | .obj l => some l.length
  | .str s => some s.data.length
  | _ => none

/-- A scalar (non-container) payload value. -/
def isScalar : Jv → Bool
  | .arr _ => false
  | .obj _ => false
  | _ => true

mutual

/-- ResponseFormatter count_nesting: walk the payload, incrementing
depth once per mapping/sequence level, abandoning branches past level
5 (HYBRID_THRESHOLD_COMPLEXITY). -/
def countNesting : Jv → Nat → Nat
  | .obj l, level =>
    if level > 5 then level
    else if l.isEmpty then level else cnFields l (level + 1)
  | .arr l, level =>
    if level > 5 then level
    else if l.isEmpty then level else cnItems l (level + 1)
  | _, level => level

/-- Maximum of count_nesting over a dict's values. -/
def cnFields : List (String × Jv) → Nat → Nat
  | [], _ => 0
  | p :: rest, level => max (countNesting p.2 level) (cnFields rest level)

/-- Maximum of count_nesting over a list's items. -/
def cnItems : List Jv → Nat → Nat
  | [], _ => 0
  | x :: rest, level => max (countNesting x level) (cnItems rest level)

end

mutual

/-- True (uncapped) nesting depth of a payload: the specification's
notion of depth, incremented once per mapping/sequence level. -/
def trueDepth : Jv → Nat
  | .obj l => if l.isEmpty then 0 else 1 + tdFields l
  | .arr l => if l.isEmpty then 0 else 1 + tdItems l
  | _ => 0

/-- Maximum of trueDepth over a dict's values. -/
def tdFields : List (String × Jv) → Nat
  | [] => 0
  | p :: rest => max (trueDepth p.2) (tdFields rest)

/-- Maximum of trueDepth over a list's items. -/
def tdItems : List Jv → Nat
  | [] => 0
  | x :: rest => max (trueDepth x) (tdItems rest)

end

/-- The `{answer, data, agent_used}` triple every pipeline returns. -/
structure AgentResp where
  answer : String
  data : Option (List (String × Jv))
  agentUsed : String

/-- Number of keys starting with source_ in a payload dict. -/
def countSources (d : List (String × Jv)) : Nat :=
  (d.filter (fun p => strStartsB p.1 "source_")).length

/-- ResponseFormatter._is_complex_structure. -/
def isComplexStructure (d : List (String × Jv)) : Bool :=
  countNesting (.obj d) 0 > 3

/-- ResponseFormatter._should_use_hybrid; `none` models the TypeError
raised when a present rows value has no len(). -/
def shouldUseHybrid : Option (List (String × Jv)) → Option Bool
  | none => some false
  | some d =>
    if d.isEmpty then some false
    else
      match lookupKey d "rows" with
      | some v =>
        match pyLen v with
        | none => none
        | some rc =>
          if rc > 10 then some true
          else some (decide (countSources d ≥ 2) || isComplexStructure d)
      | none => some (decide (countSources d ≥ 2) || isComplexStructure d)

/-- ResponseFormatter._format_natural_language. -/
def formatNaturalLanguage (answer : String) (agentUsed : String) : AgentResp :=
  ⟨answer, none, agentUsed⟩

/-- ResponseFormatter._format_json: `data or {}`. -/
def formatJson (data : Option (List (String × Jv))) (agentUsed : String) : AgentResp :=
  ⟨"Results returned in JSON format", some (data.getD []), agentUsed⟩

/-- ResponseFormatter._format_hybrid. -/
def formatHybrid (answer : String) (data : List (String × Jv)) (agentUsed : String) :
    AgentResp :=
  ⟨answer, some data, agentUsed⟩

/-- ResponseFormatter.format_response. -/
def formatResponse (answer : String) (data : Option (List (String × Jv)))
    (agentUsed : String) (jsonRequested : Bool) : Option AgentResp :=
  if jsonRequested then some (formatJson data agentUsed)
  else
    match shouldUseHybrid data with
    | none => none
    | some true => some (formatHybrid answer (data.getD []) agentUsed)
    | some false => some (formatNaturalLanguage answer agentUsed)

mutual

theorem countNesting_eq_of_le : ∀ (v : Jv) (level : Nat), level + trueDepth v ≤ 6 →
    countNesting v level = level + trueDepth v
  | .null, level, _ => by simp [countNesting, trueDepth]
  | .bool _, level, _ => by simp [countNesting, trueDepth]
  | .num _, level, _ => by simp [countNesting, trueDepth]
  | .str _, level, _ => by simp [countNesting, trueDepth]
  | .obj [], level, _ => by simp [countNesting, trueDepth]
  | .obj (p :: rest), level, h => by
    have htd : trueDepth (Jv.obj (p :: rest)) = 1 + tdFields (p :: rest) := rfl
    have hlev : ¬ level > 5 := by rw [htd] at h; omega
    have hrec := cnFields_eq_of_le (p :: rest) (level + 1) (by simp)
      (by rw [htd] at h; omega)
    have hcn : countNesting (Jv.obj (p :: rest)) level = cnFields (p :: rest) (level + 1) := by
      simp only [countNesting, if_neg hlev, List.isEmpty_cons, Bool.false_eq_true, if_false]
    rw [hcn, hrec, htd]
    omega
  | .arr [], level, _ => by simp [countNesting, trueDepth]
  | .arr (x :: rest), level, h => by
    have htd : trueDepth (Jv.arr (x :: rest)) = 1 + tdItems (x :: rest) := rfl
    have hlev : ¬ level > 5 := by rw [htd] at h; omega
    have hrec := cnItems_eq_of_le (x :: rest) (level + 1) (by simp)
      (by rw [htd] at h; omega)
    have hcn : countNesting (Jv.arr (x :: rest)) level = cnItems (x :: rest) (level + 1) := by
      simp only [countNesting, if_neg hlev, List.isEmpty_cons, Bool.false_eq_true, if_false]
    rw [hcn, hrec, htd]
    omega

theorem cnFields_eq_of_le : ∀ (l : List (String × Jv)) (level : Nat), l ≠ [] →
    level + tdFields l ≤ 6 → cnFields l level = level + tdFields l
  | [p], level, _, h => by
    have ht : tdFields [p] = max (trueDepth p.2) 0 := rfl
    have h1 := countNesting_eq_of_le p.2 level (by rw [ht] at h; omega)
    have hc : cnFields [p] level = max (countNesting p.2 level) 0 := rfl
    rw [hc, h1, ht]
    omega
  | p :: q :: rest, level, _, h => by
    have ht : tdFields (p :: q :: rest) = max (trueDepth p.2) (tdFields (q :: rest)) := rfl
    have h1 := countNesting_eq_of_le p.2 level (by rw [ht] at h; omega)
    have h2 := cnFields_eq_of_le (q :: rest) level (by simp) (by rw [ht] at h; omega)
    have hc : cnFields (p :: q :: rest) level
        = max (countNesting p.2 level) (cnFields (q :: rest) level) := rfl
    rw [hc, h1, h2, ht]
    omega

theorem cnItems_eq_of_le : ∀ (l : List Jv) (level : Nat), l ≠ [] →
    level + tdItems l ≤ 6 → cnItems l level = level + tdItems l
  | [x], level, _, h => by
    have ht : tdItems [x] = max (trueDepth x) 0 := rfl
    have h1 := countNesting_eq_of_le x level (by rw [ht] at h; omega)
    have hc : cnItems [x] level = max (countNesting x level) 0 := rfl
    rw [hc, h1, ht]
    omega
  | x :: y :: rest, level, _, h => by
    have ht : tdItems (x :: y :: rest) = max (trueDepth x) (tdItems (y :: rest)) := rfl
    have h1 := countNesting_eq_of_le x level (by rw [ht] at h; omega)
    have h2 := cnItems_eq_of_le (y :: rest) level (by simp) (by rw [ht] at h; omega)
    have hc : cnItems (x :: y :: rest) level
        = max (countNesting x level) (cnItems (y :: rest) level) := rfl
    rw [hc, h1, h2, ht]
    omega

end

mutual

theorem countNesting_ge_of_big : ∀ (v : Jv) (level : Nat), level ≤ 6 →
    7 ≤ level + trueDepth v → 6 ≤ countNesting v level
  | .null, level, h1, h2 => by simp [trueDepth] at h2; omega
  | .bool _, level, h1, h2 => by simp [trueDepth] at h2; omega
  | .num _, level, h1, h2 => by simp [trueDepth] at h2; omega
  | .str _, level, h1, h2 => by simp [trueDepth] at h2; omega
  | .obj [], level, h1, h2 => by simp [trueDepth] at h2; omega
  | .obj (p :: rest), level, h1, h2 => by
    by_cases hl : level > 5
    · have he : level = 6 := by omega
      subst he
      have : countNesting (Jv.obj (p :: rest)) 6 = 6 := rfl
      omega
    · have htd : trueDepth (Jv.obj (p :: rest)) = 1 + tdFields (p :: rest) := rfl
      have hrec := cnFields_ge_of_big (p :: rest) (level + 1) (by omega)
        (by rw [htd] at h2; omega)
      have hcn : countNesting (Jv.obj (p :: rest)) level
          = cnFields (p :: rest) (level + 1) := by
        simp only [countNesting, if_neg hl, List.isEmpty_cons, Bool.false_eq_true, if_false]
      rw [hcn]
      exact hrec
  | .arr [], level, h1, h2 => by simp [trueDepth] at h2; omega
  | .arr (x :: rest), level, h1, h2 => by
    by_cases hl : level > 5
    · have he : level = 6 := by omega
      subst he
      have : countNesting (Jv.arr (x :: rest)) 6 = 6 := rfl
      omega
    · have htd : trueDepth (Jv.arr (x :: rest)) = 1 + tdItems (x :: rest) := rfl
      have hrec := cnItems_ge_of_big (x :: rest) (level + 1) (by omega)
        (by rw [htd] at h2; omega)
      have hcn : countNesting (Jv.arr (x :: rest)) level
          = cnItems (x :: rest) (level + 1) := by
        simp only [countNesting, if_neg hl, List.isEmpty_cons, Bool.false_eq_true, if_false]
      rw [hcn]
      exact hrec

theorem cnFields_ge_of_big : ∀ (l : List (String × Jv)) (level : Nat), level ≤ 6 →
    7 ≤ level + tdFields l → 6 ≤ cnFields l level
  | [], level, h1, h2 => by
    have ht : tdFields ([] : List (String × Jv)) = 0 := rfl
    rw [ht] at h2
    omega
  | p :: rest, level, h1, h2 => by
    have ht : tdFields (p :: rest) = max (trueDepth p.2) (tdFields rest) := rfl
    have hc : cnFields (p :: rest) level
        = max (countNesting p.2 level) (cnFields rest level) := rfl
    rw [ht] at h2
    rw [hc]
    by_cases hcase : tdFields rest ≤ trueDepth p.2
    · have := countNesting_ge_of_big p.2 level h1 (by omega)
      omega
    · have := cnFields_ge_of_big rest level h1 (by omega)
      omega

theorem cnItems_ge_of_big : ∀ (l : List Jv) (level : Nat), level ≤ 6 →
    7 ≤ level + tdItems l → 6 ≤ cnItems l level
  | [], level, h1, h2 => by
    have ht : tdItems ([] : List Jv) = 0 := rfl
    rw [ht] at h2
    omega
  | x :: rest, level, h1, h2 => by
    have ht : tdItems (x :: rest) = max (trueDepth x) (tdItems rest) := rfl
    have hc : cnItems (x :: rest) level
        = max (countNesting x level) (cnItems rest level) := rfl
    rw [ht] at h2
    rw [hc]
    by_cases hcase : tdItems rest ≤ trueDepth x
    · have := countNesting_ge_of_big x level h1 (by omega)
      omega
    · have := cnItems_ge_of_big rest level h1 (by omega)
      omega

end

/-- The formatter's capped complexity test agrees with "true nesting
depth exceeds 3": the cap only cuts off walks whose depth already
exceeds 3. -/
theorem isComplex_iff (d : List (String × Jv)) :
    isComplexStructure d = true ↔ 3 < trueDepth (Jv.obj d) := by
  unfold isComplexStructure
  simp only [decide_eq_true_eq]
  by_cases h : trueDepth (Jv.obj d) ≤ 6
  · rw [countNesting_eq_of_le _ 0 (by omega)]
    omega
  · have := countNesting_ge_of_big (Jv.obj d) 0 (by omega) (by omega)
    constructor
    · intro _; omega
    · intro _; omega

/-! ## Properties of the suggestion machinery -/

theorem Ratio.rle_of_rlt {p q : Ratio} (h : p.rlt q) : p.rle q :=
  (Ratio.rle_iff _ _).2 (le_of_lt ((Ratio.rlt_iff _ _).1 h))

theorem Ratio.rle_of_req {p q : Ratio} (h : p.req q) : p.rle q :=
  (Ratio.rle_iff _ _).2 (le_of_eq ((Ratio.req_iff _ _).1 h))

/-- The similarity difflib computes for a possibility `x` against the
word: SequenceMatcher with a = x, b = word. -/
def gcmScore (word : String) (x : String) : Ratio := seqRatio x.data word.data

theorem gcmScored_mem {word : String} {poss : List String} {cutoff : Ratio}
    {p : Ratio × String} (hp : p ∈ gcmScored word poss cutoff) :
    p.1 = gcmScore word p.2 ∧ cutoff.rle p.1 ∧ p.2 ∈ poss := by
  unfold gcmScored at hp
  rcases List.mem_filterMap.1 hp with ⟨x, hx, hfx⟩
  by_cases hcond : cutoff.rle (realQuickRatio x.data word.data) ∧
      cutoff.rle (quickRatio x.data word.data) ∧ cutoff.rle (seqRatio x.data word.data)
  · rw [if_pos hcond] at hfx
    cases hfx
    exact ⟨rfl, hcond.2.2, hx⟩
  · rw [if_neg hcond] at hfx
    cases hfx

theorem getCloseMatches_length (word : String) (poss : List String) (n : Nat)
    (cutoff : Ratio) : (getCloseMatches word poss n cutoff).length ≤ n := by
  unfold getCloseMatches
  rw [List.length_map]
  exact (List.length_take_le _ _).trans (le_refl _)

theorem getCloseMatches_mem {word : String} {poss : List String} {n : Nat}
    {cutoff : Ratio} {m : String} (hm : m ∈ getCloseMatches word poss n cutoff) :
    m ∈ poss ∧ cutoff.rle (gcmScore word m) := by
  unfold getCloseMatches at hm
  rcases List.mem_map.1 hm with ⟨p, hp, hpm⟩
  have hp1 : p ∈ (gcmScored word poss cutoff).insertionSort scoredDesc :=
    (List.take_sublist _ _).subset hp
  have hp2 : p ∈ gcmScored word poss cutoff :=
    (List.perm_insertionSort scoredDesc _).subset hp1
  rcases gcmScored_mem hp2 with ⟨hscore, hcut, hmem⟩
  subst hpm
  exact ⟨hmem, hscore ▸ hcut⟩

theorem getCloseMatches_sorted (word : String) (poss : List String) (n : Nat)
    (cutoff : Ratio) :
    List.Sorted (fun a b => (gcmScore word b).rle (gcmScore word a))
      (getCloseMatches word poss n cutoff) := by
  unfold getCloseMatches
  rw [List.Sorted, List.pairwise_map]
  have hsorted : List.Sorted scoredDesc
      ((gcmScored word poss cutoff).insertionSort scoredDesc) :=
    List.sorted_insertionSort scoredDesc _
  have htake : List.Pairwise scoredDesc
      (((gcmScored word poss cutoff).insertionSort scoredDesc).take n) :=
    hsorted.sublist (List.take_sublist _ _)
  refine htake.imp_of_mem ?_
  intro p q hp hq hpq
  have hp2 : p ∈ gcmScored word poss cutoff :=
    (List.perm_insertionSort scoredDesc _).subset ((List.take_sublist _ _).subset hp)
  have hq2 : q ∈ gcmScored word poss cutoff :=
    (List.perm_insertionSort scoredDesc _).subset ((List.take_sublist _ _).subset hq)
  have hps := (gcmScored_mem hp2).1
  have hqs := (gcmScored_mem hq2).1
  rcases hpq with h | ⟨h, _⟩
  · exact hps ▸ hqs ▸ Ratio.rle_of_rlt h
  · exact hps ▸ hqs ▸ Ratio.rle_of_req ((Ratio.req_iff _ _).2
      ((Ratio.req_iff _ _).1 h).symm)

/-- Invariant-carrying characterisation of the map-back loop. -/
theorem mapBack_props (g : String → Ratio) (cands : List String) :
    ∀ (ms res : List String),
    List.Sorted (fun a b => (g b).rle (g a)) ms →
    List.Sorted (fun x y => (g (strLower y)).rle (g (strLower x))) res →
    (∀ r ∈ res, ∀ m ∈ ms, (g m).rle (g (strLower r))) →
    List.Sorted (fun x y => (g (strLower y)).rle (g (strLower x))) (mapBack cands ms res) ∧
    (∀ c ∈ mapBack cands ms res, c ∈ res ∨ (c ∈ cands ∧ strLower c ∈ ms)) ∧
    (mapBack cands ms res).length ≤ res.length + ms.length := by
  intro ms
  induction ms with
  | nil =>
    intro res _ hres _
    refine ⟨hres, ?_, by simp [mapBack]⟩
    intro c hc
    exact Or.inl (by simpa [mapBack] using hc)
  | cons m ms ih =>
    intro res hms hres hlink
    have hms_tail : List.Sorted (fun a b => (g b).rle (g a)) ms := hms.of_cons
    have hms_head : ∀ m' ∈ ms, (g m').rle (g m) := List.rel_of_sorted_cons hms
    match hfc : firstCand m cands res with
    | none =>
      have heq : mapBack cands (m :: ms) res = mapBack cands ms res := by
        simp [mapBack, hfc]
      rw [heq]
      have := ih res hms_tail hres
        (fun r hr m' hm' => hlink r hr m' (List.mem_cons_of_mem _ hm'))
      refine ⟨this.1, ?_, by have := this.2.2; simp; omega⟩
      intro c hc
      rcases this.2.1 c hc with h | ⟨h1, h2⟩
      · exact Or.inl h
      · exact Or.inr ⟨h1, List.mem_cons_of_mem _ h2⟩
    | some c =>
      have heq : mapBack cands (m :: ms) res = mapBack cands ms (res ++ [c]) := by
        simp [mapBack, hfc]
      rw [heq]
      have hfc' : cands.find? (fun c => strEqB (strLower c) m && !(res.any (strEqB c)))
          = some c := by simpa [firstCand] using hfc
      have hcp := List.find?_some hfc'
      have hcc : c ∈ cands := List.mem_of_find?_eq_some hfc'
      have hlow : strLower c = m := by
        simp only [Bool.and_eq_true] at hcp
        exact (strEqB_iff _ _).1 hcp.1
      have hres' : List.Sorted (fun x y => (g (strLower y)).rle (g (strLower x)))
          (res ++ [c]) := by
        rw [List.Sorted, List.pairwise_append]
        refine ⟨hres, by simp, ?_⟩
        intro r hr c' hc'
        have : c' = c := by simpa using hc'
        subst this
        rw [hlow]
        exact hlink r hr m (List.mem_cons_self _ _)
      have hlink' : ∀ r ∈ res ++ [c], ∀ m' ∈ ms, (g m').rle (g (strLower r)) := by
        intro r hr m' hm'
        rcases List.mem_append.1 hr with h | h
        · exact hlink r h m' (List.mem_cons_of_mem _ hm')
        · have : r = c := by simpa using h
          subst this
          rw [hlow]
          exact hms_head m' hm'
      have := ih (res ++ [c]) hms_tail hres' hlink'
      refine ⟨this.1, ?_, ?_⟩
      · intro c' hc'
        rcases this.2.1 c' hc' with h | ⟨h1, h2⟩
        · rcases List.mem_append.1 h with h | h
          · exact Or.inl h
          · have : c' = c := by simpa using h
            subst this
            exact Or.inr ⟨hcc, by rw [hlow]; exact List.mem_cons_self _ _⟩
        · exact Or.inr ⟨h1, List.mem_cons_of_mem _ h2⟩
      · have h3 := this.2.2
        have e1 : (res ++ [c]).length = res.length + 1 := by simp
        have e2 : (m :: ms).length = ms.length + 1 := by simp
        rw [e1] at h3
        rw [e2]
        omega

/-! ## Analytics Agent: tier resolution, parsing, and pipeline -/

/-- Contiguous-sublist test (Python's `in` on strings). -/
def isSubListB (needle : List Char) : List Char → Bool
  | [] => needle.isEmpty
  | c :: rest => needle.isPrefixOf (c :: rest) || isSubListB needle rest

/-- Python `needle in hay` for strings. -/
def strContainsB (hay needle : String) : Bool := isSubListB needle.data hay.data

/-- The analytics agent's extended-tier state: the
(_extended_enabled, _extended_reason) pair of instance fields. -/
structure TierState where
  enabled : Bool
  reason : String
deriving Repr, DecidableEq

def coreMetricNames : List String := CORE_METRICS.map (fun p => p.1)

def extendedMetricNames : List String := EXTENDED_METRICS.map (fun p => p.1)

def coreDimensionNames : List String := CORE_DIMENSIONS.map (fun p => p.1)

def extendedDimensionNames : List String := EXTENDED_DIMENSIONS.map (fun p => p.1)

/-- First trigger keyword occurring in the lowercased query. -/
def firstTrigger (queryLower : String) : Option String :=
  EXTENDED_TRIGGERS.find? (fun t => strContainsB queryLower t)

/-- AnalyticsAgent._check_extended_triggers, run on the state freshly
reset to (False, "") at the top of process(): first matching trigger
keyword, else first extended parsed metric, else first extended parsed
dimension, else unchanged. -/
def checkExtendedTriggers (query : String) (metrics dimensions : List String) :
    TierState :=
  match firstTrigger (strLower query) with
  | some t => ⟨true, "query mentions " ++ quoted t⟩
  | none =>
    match metrics.find? (fun m => extendedMetricNames.any (strEqB m)) with
    | some m => ⟨true, "metric " ++ quoted m ++ " requires extended tier"⟩
    | none =>
      match dimensions.find? (fun d => extendedDimensionNames.any (strEqB d)) with
      | some d => ⟨true, "dimension " ++ quoted d ++ " requires extended tier"⟩
      | none => ⟨false, ""⟩

/-- The JSON object the LLM extraction returns for an analytics query:
each field may be absent/None (and lists/strings/numbers may be empty,
which Python treats as falsy in the same way). -/
structure RawParsed where
  metrics : Option (List String)
  dimensions : Option (List String)
  start_date : Option String
  end_date : Option String
  limit : Option Nat

/-- The normalised parsed query after defaults. -/
structure ParsedQuery where
  metrics : List String
  dimensions : Option (List String)
  start_date : String
  end_date : String
  limit : Nat
deriving Repr, DecidableEq

/-- AnalyticsAgent.DEFAULT_DATE_RANGE. -/
def DEFAULT_DATE_RANGE : String × String := ("7daysAgo", "today")

/-- AnalyticsAgent._parse_query: the LLM call either raises (full
defaults) or returns a dict to which per-field defaults are applied for
falsy metrics / start_date / end_date / limit. -/
def parseQuery : Except Unit RawParsed → ParsedQuery
  | .error _ =>
    ⟨["users"], some [], DEFAULT_DATE_RANGE.1, DEFAULT_DATE_RANGE.2, 10⟩
  | .ok r =>
    { metrics :=
        match r.metrics with
        | none => ["users"]
        | some [] => ["users"]
        | some ms => ms
      dimensions := r.dimensions
      start_date :=
        match r.start_date with
        | none => DEFAULT_DATE_RANGE.1
        | some s => if s = "" then DEFAULT_DATE_RANGE.1 else s
      end_date :=
        match r.end_date with
        | none => DEFAULT_DATE_RANGE.2
        | some s => if s = "" then DEFAULT_DATE_RANGE.2 else s
      limit :=
        match r.limit with
        | none => 10
        | some 0 => 10
        | some n => n }

/-- AnalyticsAgent._resolve_and_validate: compute the tier, build the
active allowlist, validate every metric then every dimension, stopping
at the first ValidationError. -/
def resolveAndValidate (query : String) (parsedMetrics parsedDimensions : List String) :
    TierState × Except String (List String × List String) :=
  let st := checkExtendedTriggers query parsedMetrics parsedDimensions
  let validMetrics := coreMetricNames ++ (if st.enabled then extendedMetricNames else [])
  let validDimensions :=
    coreDimensionNames ++ (if st.enabled then extendedDimensionNames else [])
  (st,
    do
      let ms ← parsedMetrics.mapM (fun m => validateField m validMetrics "Metric")
      let ds ← parsedDimensions.mapM (fun d => validateField d validDimensions "Dimension")
      pure (ms, ds))

/-- Opaque collaborator outcomes for one analytics request: the LLM
extraction call, the GA4 run_report call, and the LLM
explanation-generation call. -/
structure AnalyticsEnv where
  parseOutcome : Except Unit RawParsed
  ga4Outcome : Except String (List (String × Jv))
  nlOutcome : Except Unit String

/-- data.get('row_count', 0) (GA4Client.run_report always sets an
integer row_count). -/
def getRowCount (data : List (String × Jv)) : Int :=
  match lookupKey data "row_count" with
  | some (.num n) => n
  | _ => 0

/-- The fixed no-data explanation template of _generate_nl_response. -/
def noDataMsg (parsed : ParsedQuery) : String :=
  "No data found for the specified query. This could mean:\n" ++
    "- No traffic during the date range (" ++ parsed.start_date ++ " to " ++
    parsed.end_date ++ ")\n" ++
    "- The requested dimensions/metrics have no recorded values\n" ++
    "- The property ID may not have the expected data"

/-- Python str() of a scalar payload value (containers abbreviated;
they do not occur in GA4 row cells). -/
def renderJv : Jv → String
  | .str s => s
  | .num n => toString n
  | .bool b => if b then "True" else "False"
  | .null => "None"
  | .arr _ => "..."
  | .obj _ => "..."

/-- The "k: v" join over a row's items used by the fallback summary. -/
def renderRow (row : List (String × Jv)) : String :=
  joinComma (row.map (fun p => p.1 ++ ": " ++ renderJv p.2))

/-- AnalyticsAgent._generate_nl_response: zero rows short-circuit to
the fixed template; otherwise the generation capability's answer, or
the basic first-row fallback if it raises. -/
def generateNlResponse (nlOutcome : Except Unit String) (data : List (String × Jv))
    (parsed : ParsedQuery) : String :=
  if getRowCount data = 0 then noDataMsg parsed
  else
    match nlOutcome with
    | .ok s => s
    | .error _ =>
      match lookupKey data "rows" with
      | some (.arr (r :: rest)) =>
        (match r with
         | .obj fields =>
           "Results for your query: " ++ renderRow fields ++ " (and " ++
             toString rest.length ++ " more rows)"
         | _ => "Query completed but could not generate explanation.")
      | _ => "Query completed but could not generate explanation."

/-- AnalyticsAgent._synthesize_response. -/
def synthesizeAnalyticsResponse (st : TierState) (data : List (String × Jv))
    (jsonRequested : Bool) (nlOutcome : Except Unit String) (parsed : ParsedQuery) :
    AgentResp :=
  let rowCount := getRowCount data
  let acknowledgment :=
    if st.enabled then
      "(Note: Including extended metrics to answer your " ++ st.reason ++ ".) "
    else ""
  if jsonRequested then
    ⟨acknowledgment ++ "Results returned in JSON format.", some data, "analytics"⟩
  else
    let nlResponse := generateNlResponse nlOutcome data parsed
    if rowCount > 10 then ⟨acknowledgment ++ nlResponse, some data, "analytics"⟩
    else ⟨acknowledgment ++ nlResponse, none, "analytics"⟩

/-- The GA4PropertyError message raised when no property id is
available. -/
def ga4PropertyMsg : String :=
  "GA4 Property ID is required. Please provide " ++ quoted "propertyId" ++
    " in your request (e.g., " ++ quoted "123456789" ++
    "). You can find this in Google Analytics under Admin > Property Settings."

/-- Outcome of one analytics request: the returned triple, whether
ga4_client.run_report was invoked, and the final value of the
extended-tier flag. -/
structure ProcOut where
  resp : AgentResp
  ga4Called : Bool
  extendedAtEnd : Bool

/-- Python truthiness of an optional string (None and "" are falsy). -/
def truthyStr : Option String → Option String
  | some s => if s = "" then none else some s
  | none => none

/-- Stages 1-4 of AnalyticsAgent.process, after the property id has
been resolved: parse, tier-resolve and validate, execute, synthesize;
ValidationError and GA4APIError are converted to error-shaped
responses. -/
def analyticsPipelineCore (env : AnalyticsEnv) (query : String) (jsonRequested : Bool) :
    ProcOut :=
  let parsed := parseQuery env.parseOutcome
  let stv := resolveAndValidate query parsed.metrics (parsed.dimensions.getD [])
  match stv.2 with
  | .error msg => ⟨⟨msg, none, "analytics"⟩, false, stv.1.enabled⟩
  | .ok _ =>
    match env.ga4Outcome with
    | .error e =>
      ⟨⟨"Error querying Google Analytics: " ++ e, none, "analytics"⟩, true,
        stv.1.enabled⟩
    | .ok data =>
      ⟨synthesizeAnalyticsResponse stv.1 data jsonRequested env.nlOutcome parsed, true,
        stv.1.enabled⟩

/-- AnalyticsAgent.process: resolve the property id (`property_id or
default`, hard GA4PropertyError if falsy), then run the pipeline;
every exception is converted to an error-shaped response. -/
def analyticsProcess (env : AnalyticsEnv) (query : String)
    (propertyId defaultPropertyId : Option String) (jsonRequested : Bool) : ProcOut :=
  let resolved :=
    match truthyStr propertyId with
    | some p => some p
    | none => truthyStr defaultPropertyId
  match resolved with
  | none => ⟨⟨ga4PropertyMsg, none, "analytics"⟩, false, false⟩
  | some _ => analyticsPipelineCore env query jsonRequested

/-! ## SEO Agent: grouping and aggregation over the data frame -/

/-- An exact numeric cell value (Python int/float; sums and means stay
exact rationals). -/
structure PyNum where
  num : Int
  den : Nat
  den_pos : 0 < den

/-- Value of a numeric cell as a rational. -/
def PyNum.toRat (x : PyNum) : ℚ := (x.num : ℚ) / (x.den : ℚ)

/-- Value `<=` on numeric cells. -/
def PyNum.ple (x y : PyNum) : Prop := x.num * (y.den : Int) ≤ y.num * (x.den : Int)

/-- Value `==` on numeric cells. -/
def PyNum.peq (x y : PyNum) : Prop := x.num * (y.den : Int) = y.num * (x.den : Int)

instance (x y : PyNum) : Decidable (x.ple y) := by unfold PyNum.ple; infer_instance

instance (x y : PyNum) : Decidable (x.peq y) := by unfold PyNum.peq; infer_instance

theorem PyNum.ple_iff (x y : PyNum) : x.ple y ↔ x.toRat ≤ y.toRat := by
  unfold PyNum.ple PyNum.toRat
  rw [div_le_div_iff₀ (by exact_mod_cast x.den_pos) (by exact_mod_cast y.den_pos)]
  exact_mod_cast Iff.rfl

theorem PyNum.peq_iff (x y : PyNum) : x.peq y ↔ x.toRat = y.toRat := by
  unfold PyNum.peq PyNum.toRat
  rw [div_eq_div_iff (Nat.cast_ne_zero.mpr x.den_pos.ne') (Nat.cast_ne_zero.mpr y.den_pos.ne')]
  exact_mod_cast Iff.rfl

/-- Boolean value `<=`. -/
def PyNum.leB (x y : PyNum) : Bool := decide (x.ple y)

/-- Boolean value `==`. -/
def PyNum.eqB (x y : PyNum) : Bool := decide (x.peq y)

/-- Embed an integer. -/
def PyNum.ofInt (n : Int) : PyNum := ⟨n, 1, by omega⟩

/-- Exact addition. -/
def PyNum.add (x y : PyNum) : PyNum :=
  ⟨x.num * y.den + y.num * x.den, x.den * y.den, Nat.mul_pos x.den_pos y.den_pos⟩

/-- Exact division by a natural number (unused guard value for 0). -/
def PyNum.divNat (x : PyNum) (n : Nat) : PyNum :=
  if h : 0 < n then ⟨x.num, x.den * n, Nat.mul_pos x.den_pos h⟩ else ⟨0, 1, by omega⟩

/-- Exact multiplication by a natural number. -/
def PyNum.mulNat (x : PyNum) (n : Nat) : PyNum := ⟨x.num * n, x.den, x.den_pos⟩

/-- numpy round-half-to-even of a fraction to an integer. -/
def roundHalfEvenInt (y : PyNum) : Int :=
  let f := Int.fdiv y.num y.den
  let t := 2 * (y.num - f * y.den)
  if t < (y.den : Int) then f
  else if t > (y.den : Int) then f + 1
  else if f % 2 = 0 then f else f + 1

/-- pandas .round(2). -/
def PyNum.round2 (x : PyNum) : PyNum :=
  ⟨roundHalfEvenInt (x.mulNat 100), 100, by omega⟩

/-- A data-frame cell: string or numeric. -/
inductive Cell
  | str (v : String)
  | num (v : PyNum)

/-- Cell value equality (pandas groupby key matching). -/
def cellEqB : Cell → Cell → Bool
  | .str a, .str b => strEqB a b
  | .num a, .num b => a.eqB b
  | _, _ => false

/-- Cell ordering used by pandas when sorting group keys ascending
(columns are homogeneous in practice; numerics sort before strings in
the mixed case to keep the order total). -/
def cellLeB : Cell → Cell → Bool
  | .num a, .num b => a.leB b
  | .str a, .str b => strLeB a b
  | .num _, .str _ => true
  | .str _, .num _ => false

/-- A pandas DataFrame: column names plus rows of cells. -/
structure DFrame where
  cols : List String
  rows : List (List Cell)

/-- Index of a column name. -/
def colIndex (cols : List String) (c : String) : Nat := cols.findIdx (strEqB c)

/-- Cell of a row at a column index. -/
def cellAt (row : List Cell) (i : Nat) : Cell := row.getD i (.str "")

/-- Keep-first deduplication of cell values (pandas unique group
keys), structurally recursive for kernel evaluation. -/
def dedupCellsAux (seen : List Cell) : List Cell → List Cell
  | [] => []
  | c :: rest =>
    if seen.any (fun s => cellEqB s c) then dedupCellsAux seen rest
    else c :: dedupCellsAux (c :: seen) rest

/-- Distinct cell values of a list, first occurrences first. -/
def dedupCells (l : List Cell) : List Cell := dedupCellsAux [] l

/-- Ascending key order as a sorting relation. -/
def keyAsc (a b : Cell) : Prop := cellLeB a b = true

instance : DecidableRel keyAsc := fun a b => by unfold keyAsc; infer_instance

instance : IsTotal Cell keyAsc := by
  constructor
  intro a b
  cases a with
  | str sa =>
    cases b with
    | str sb =>
      rcases lexLeB_total sa.data sb.data with h | h
      · exact Or.inl h
      · exact Or.inr h
    | num _ => exact Or.inr rfl
  | num na =>
    cases b with
    | str _ => exact Or.inl rfl
    | num nb =>
      unfold keyAsc cellLeB PyNum.leB
      rcases le_total (na.num * (nb.den : Int)) (nb.num * (na.den : Int)) with h | h
      · exact Or.inl (by simp [PyNum.ple, h])
      · exact Or.inr (by simp [PyNum.ple, h])

instance : IsTrans Cell keyAsc := by
  constructor
  intro a b c hab hbc
  cases a with
  | str sa =>
    cases b with
    | str sb =>
      cases c with
      | str sc => exact lexLeB_trans _ _ _ hab hbc
      | num _ => simp [keyAsc, cellLeB] at hbc
    | num _ => simp [keyAsc, cellLeB] at hab
  | num na =>
    cases b with
    | str _ =>
      cases c with
      | str _ => rfl
      | num _ => simp [keyAsc, cellLeB] at hbc
    | num nb =>
      cases c with
      | str _ => rfl
      | num nc =>
        have h1 : na.ple nb := by simpa [keyAsc, cellLeB, PyNum.leB] using hab
        have h2 : nb.ple nc := by simpa [keyAsc, cellLeB, PyNum.leB] using hbc
        have : na.ple nc := (PyNum.ple_iff _ _).2
          (le_trans ((PyNum.ple_iff _ _).1 h1) ((PyNum.ple_iff _ _).1 h2))
        simpa [keyAsc, cellLeB, PyNum.leB] using this

/-- Descending order on (key, count) pairs by count (sort_values on the
count column, ascending=False). -/
def byCountDesc (p q : Cell × Nat) : Prop := q.2 ≤ p.2

instance : DecidableRel byCountDesc := fun p q => by unfold byCountDesc; infer_instance

instance : IsTotal (Cell × Nat) byCountDesc :=
  ⟨fun a b => (le_total b.2 a.2).imp (fun h => h) (fun h => h)⟩

instance : IsTrans (Cell × Nat) byCountDesc :=
  ⟨fun _ _ _ hab hbc => le_trans hbc hab⟩

/-- Descending order on (key, count, percentage) triples by the rounded
percentage (sort_values on the percentage column, ascending=False). -/
def byPctDesc (p q : Cell × Nat × PyNum) : Prop := q.2.2.ple p.2.2

instance : DecidableRel byPctDesc := fun p q => by unfold byPctDesc; infer_instance

instance : IsTotal (Cell × Nat × PyNum) byPctDesc := by
  constructor
  intro a b
  unfold byPctDesc
  rcases le_total a.2.2.toRat b.2.2.toRat with h | h
  · exact Or.inr ((PyNum.ple_iff _ _).2 h)
  · exact Or.inl ((PyNum.ple_iff _ _).2 h)

instance : IsTrans (Cell × Nat × PyNum) byPctDesc := by
  constructor
  intro a b c hab hbc
  unfold byPctDesc at *
  exact (PyNum.ple_iff _ _).2
    (le_trans ((PyNum.ple_iff _ _).1 hbc) ((PyNum.ple_iff _ _).1 hab))

/-- Rows of the frame whose group cell equals the key. -/
def groupRows (df : DFrame) (gi : Nat) (k : Cell) : List (List Cell) :=
  df.rows.filter (fun r => cellEqB (cellAt r gi) k)

/-- groupby(col).size() for one key. -/
def countKey (df : DFrame) (gi : Nat) (k : Cell) : Nat := (groupRows df gi k).length

/-- Numeric value of a cell (numeric columns only contain .num cells). -/
def cellNum : Cell → PyNum
  | .num x => x
  | .str _ => PyNum.ofInt 0

/-- Whether a cell is numeric. -/
def isNumCell : Cell → Bool
  | .num _ => true
  | .str _ => false

/-- Exact sum of numeric cells. -/
def sumCells (l : List PyNum) : PyNum := l.foldl PyNum.add (PyNum.ofInt 0)

/-- Exact mean of numeric cells. -/
def meanCells (l : List PyNum) : PyNum := (sumCells l).divNat l.length

/-- Indices of the frame's numeric columns
(df.select_dtypes(include='number')). -/
def numericColIdxs (df : DFrame) : List Nat :=
  (List.range df.cols.length).filter (fun i => df.rows.all (fun r => isNumCell (cellAt r i)))

/-- The sorted distinct group keys (pandas groupby sorts keys
ascending by default). -/
def groupKeys (df : DFrame) (gi : Nat) : List Cell :=
  (dedupCells (df.rows.map (fun r => cellAt r gi))).insertionSort keyAsc

/-- The ascending-by-key count table produced by
`groupby(col).size().reset_index(name='count')` with no sort_values
(the sum/average fallback and the unknown-aggregation branch). -/
def countTableAsc (df : DFrame) (groupCol : String) (gi : Nat) : DFrame :=
  ⟨[groupCol, "count"],
    (groupKeys df gi).map (fun k => [k, Cell.num (PyNum.ofInt (countKey df gi k))])⟩

/-- SEOAgent._apply_grouping.  For "sum"/"average", if the group
column is itself numeric it appears both as index and as aggregated
column and reset_index raises a duplicate-column ValueError, which the
surrounding except returns the input frame unchanged. -/
def applyGrouping (df : DFrame) (groupCol : String) (agg : String) : DFrame :=
  let gi := colIndex df.cols groupCol
  let keys := groupKeys df gi
  if strEqB agg "count" then
    let pairs := keys.map (fun k => (k, countKey df gi k))
    ⟨[groupCol, "count"],
      (pairs.insertionSort byCountDesc).map
        (fun p => [p.1, Cell.num (PyNum.ofInt p.2)])⟩
  else if strEqB agg "percentage" then
    let total := df.rows.length
    let triples := keys.map (fun k =>
      (k, countKey df gi k,
        (((PyNum.ofInt (countKey df gi k)).divNat total).mulNat 100).round2))
    ⟨[groupCol, "count", "percentage"],
      (triples.insertionSort byPctDesc).map
        (fun p => [p.1, Cell.num (PyNum.ofInt p.2.1), Cell.num p.2.2])⟩
  else if strEqB agg "sum" then
    let numIdx := numericColIdxs df
    if numIdx.isEmpty then countTableAsc df groupCol gi
    else if numIdx.any (fun i => i == gi) then df
    else
      ⟨groupCol :: numIdx.map (fun i => df.cols.getD i ""),
        keys.map (fun k =>
          k :: numIdx.map (fun i =>
            Cell.num (sumCells ((groupRows df gi k).map (fun r => cellNum (cellAt r i))))))⟩
  else if strEqB agg "average" then
    let numIdx := numericColIdxs df
    if numIdx.isEmpty then countTableAsc df groupCol gi
    else if numIdx.any (fun i => i == gi) then df
    else
      ⟨groupCol :: numIdx.map (fun i => df.cols.getD i ""),
        keys.map (fun k =>
          k :: numIdx.map (fun i =>
            Cell.num (meanCells ((groupRows df gi k).map (fun r => cellNum (cellAt r i))))))⟩
  else countTableAsc df groupCol gi

/-! ## SEO Agent: response synthesis -/

/-- SEOAgent._should_use_hybrid: hybrid for medium-sized result sets,
10 ≤ rows ≤ 100, never for an empty frame. -/
def seoShouldUseHybrid (rowCount : Nat) : Bool :=
  if rowCount = 0 then false else decide (10 ≤ rowCount ∧ rowCount ≤ 100)

/-- The data_dict built by SEOAgent._synthesize_response from the
transformed frame (rows as records). -/
def seoDataDict (resultRows : List (List (String × Jv))) (columns : List String) :
    List (String × Jv) :=
  if resultRows.isEmpty then [("rows", Jv.arr []), ("columns", Jv.arr [])]
  else
    [("rows", Jv.arr (resultRows.map Jv.obj)),
     ("columns", Jv.arr (columns.map Jv.str)),
     ("total_rows", Jv.num resultRows.length)]

/-- SEOAgent._synthesize_response (nlAnswer is the outcome of the
natural-language summary generation): JSON if requested, else hand the
payload to the shared formatter only when the SEO-specific hybrid gate
accepts it. -/
def seoSynthesizeResponse (resultRows : List (List (String × Jv))) (columns : List String)
    (nlAnswer : String) (jsonRequested : Bool) : Option AgentResp :=
  let dataDict := seoDataDict resultRows columns
  if jsonRequested then
    formatResponse "Results returned in JSON format" (some dataDict) "seo" true
  else if seoShouldUseHybrid resultRows.length then
    formatResponse nlAnswer (some dataDict) "seo" false
  else
    formatResponse nlAnswer none "seo" false

/-! ## Orchestrator: parallel execution and aggregation -/

/-- A decomposed sub-task. -/
structure SubTask where
  agent : String
  subQuery : String

/-- Outcome of one sub-task's execution: an agent response, None for an
unrecognized agent type, or a raised exception. -/
inductive TaskOutcome
  | success (r : AgentResp)
  | unknownAgent
  | failed

/-- asyncio.gather: sub-tasks complete in arbitrary arrival order, but
each result is stored in the slot of its task index, so the returned
list follows task-submission order.  `arrivalOrder` lists task indices
in completion order. -/
def gatherModel (outcomes : List TaskOutcome) (arrivalOrder : List Nat) :
    List (Option TaskOutcome) :=
  let arrivals := arrivalOrder.map (fun i => (i, outcomes.get? i))
  (List.range outcomes.length).map (fun i =>
    match arrivals.find? (fun p => p.1 == i) with
    | some (_, some o) => some o
    | _ => none)

/-- Orchestrator._execute_tasks_parallel: gather, then drop None
results and exceptions. -/
def executeTasksParallel (outcomes : List TaskOutcome) (arrivalOrder : List Nat) :
    List AgentResp :=
  (gatherModel outcomes arrivalOrder).filterMap (fun o =>
    match o with
    | some (.success r) => some r
    | _ => none)

/-- Python truthiness of an optional data dict (None and {} falsy). -/
def truthyData : Option (List (String × Jv)) → Option (List (String × Jv))
  | some d => if d.isEmpty then none else some d
  | none => none

/-- The source_i → data map of Orchestrator._aggregate_results,
numbered by enumerate over the (filtered) result list. -/
def aggregateData (results : List AgentResp) : List (String × Jv) :=
  results.enum.filterMap (fun p =>
    match truthyData p.2.data with
    | some d => some ("source_" ++ toString (p.1 + 1), Jv.obj d)
    | none => none)

/-- The answers collected by _aggregate_results (truthy answers only). -/
def allAnswers (results : List AgentResp) : List String :=
  (results.filter (fun r => !(strEqB r.answer ""))).map (fun r => r.answer)

/-- Orchestrator._should_use_hybrid: total row count across sources
exceeds 5. -/
def orchestratorShouldUseHybrid (allData : List (String × Jv)) : Bool :=
  if allData.isEmpty then false
  else
    decide (((allData.map (fun p =>
      match p.2 with
      | .obj d =>
        match lookupKey d "rows" with
        | some (.arr l) => l.length
        | _ => 0
      | _ => 0)).sum) > 5)

/-- Orchestrator._aggregate_results (the agent_used field is
subsequently set to multi-agent by _route_to_multi_agent;
unifiedAnswer is the outcome of the narrative-synthesis LLM call). -/
def aggregateResults (results : List AgentResp) (jsonRequested : Bool)
    (unifiedAnswer : String) : AgentResp :=
  if results.isEmpty then
    ⟨"Unable to process query with available agents.", none, "multi-agent"⟩
  else
    let allData := aggregateData results
    if jsonRequested then
      ⟨"Combined results from analytics and SEO data returned in JSON format",
        if allData.isEmpty then none else some allData, "multi-agent"⟩
    else
      ⟨unifiedAnswer,
        if allData.isEmpty then none
        else if orchestratorShouldUseHybrid allData then some allData else none,
        "multi-agent"⟩

/-! ## Claim theorems -/

/-- C8: if the LLM extraction raises during analytics parsing,
_parse_query returns the complete default ParsedQuery (single generic
usage metric, no dimensions, 7daysAgo..today, limit 10) and never
propagates the failure; when extraction succeeds but omits the metric
list, start date, end date, or limit, the same per-field defaults are
applied. -/
theorem C8_parse_defaults :
    parseQuery (.error ()) =
      ⟨["users"], some [], "7daysAgo", "today", 10⟩ ∧
    (∀ r : RawParsed,
      (r.metrics = none → (parseQuery (.ok r)).metrics = ["users"]) ∧
      (r.start_date = none → (parseQuery (.ok r)).start_date = "7daysAgo") ∧
      (r.end_date = none → (parseQuery (.ok r)).end_date = "today") ∧
      (r.limit = none → (parseQuery (.ok r)).limit = 10)) := by
  refine ⟨rfl, ?_⟩
  intro r
  refine ⟨?_, ?_, ?_, ?_⟩ <;> intro h <;> simp [parseQuery, h, DEFAULT_DATE_RANGE]

theorem C8_parse_defaults_witness :
    (parseQuery (.ok ⟨none, none, none, none, none⟩)).metrics = ["users"] ∧
    (parseQuery (.ok ⟨none, none, none, none, none⟩)).start_date = "7daysAgo" ∧
    (parseQuery (.ok ⟨none, none, none, none, none⟩)).end_date = "today" ∧
    (parseQuery (.ok ⟨none, none, none, none, none⟩)).limit = 10 :=
  have h := C8_parse_defaults.2 ⟨none, none, none, none, none⟩
  ⟨h.1 rfl, h.2.1 rfl, h.2.2.1 rfl, h.2.2.2 rfl⟩

/-- C5: with no caller-supplied property id and no configured default,
the analytics pipeline returns the guidance response with data = null
and agent_used = analytics, and ga4_client.run_report is never
invoked. -/
theorem C5_missing_property_id (env : AnalyticsEnv) (query : String) (jr : Bool)
    (pid dpid : Option String) (h1 : pid = none) (h2 : dpid = none) :
    analyticsProcess env query pid dpid jr =
      ⟨⟨ga4PropertyMsg, none, "analytics"⟩, false, false⟩ := by
  subst h1
  subst h2
  rfl

theorem C5_missing_property_id_witness :
    analyticsProcess ⟨.error (), .error "api", .error ()⟩ "how many users this week"
        none none false =
      ⟨⟨ga4PropertyMsg, none, "analytics"⟩, false, false⟩ :=
  C5_missing_property_id _ _ _ _ _ rfl rfl

/-- C1 (amended): for a user term whose lowercased, stripped form is
not an alias-table key and matches some catalog column
case-insensitively, the resolver returns the first such column via the
exact-match route, with no warning and never via fuzzy matching.  (As
the counterexample shows, the alias table takes priority over the
exact match, so the restriction to non-alias terms is necessary.) -/
theorem C1_exact_match (cols : List String) (userField : String)
    (halias : COLUMN_ALIASES.find?
      (fun p => strEqB p.1 (strTrim (strLower userField))) = none)
    (hexact : ∃ c ∈ cols, strLower c = strTrim (strLower userField)) :
    ∃ col ∈ cols, strLower col = strTrim (strLower userField) ∧
      resolveSingleColumn cols userField = .resolved col none := by
  have hsome : (cols.find?
      (fun c => strEqB (strLower c) (strTrim (strLower userField)))).isSome := by
    rcases hexact with ⟨c, hc, he⟩
    exact List.find?_isSome.2 ⟨c, hc, (strEqB_iff _ _).2 he⟩
  rcases Option.isSome_iff_exists.1 hsome with ⟨col, hcol⟩
  have hp := List.find?_some hcol
  refine ⟨col, List.mem_of_find?_eq_some hcol, (strEqB_iff _ _).1 hp, ?_⟩
  simp only [resolveSingleColumn, halias, Option.map_none', resolveNonAlias, hcol]

theorem C1_exact_match_witness :
    ∃ col ∈ ["Custom Field", "Address"], strLower col = strTrim (strLower "CUSTOM FIELD") ∧
      resolveSingleColumn ["Custom Field", "Address"] "CUSTOM FIELD" =
        .resolved col none :=
  C1_exact_match ["Custom Field", "Address"] "CUSTOM FIELD" (by rfl)
    ⟨"Custom Field", by simp, by rfl⟩

/-- C1 counterexample: the term "content" occurs verbatim
(case-insensitively) as the column "Content" of the catalog, yet the
resolver returns "Content Type" (the alias-table target) with no
warning: the alias route pre-empts the exact-match route, refuting the
claim's "regardless of whether the term also appears as a key of the
alias table". -/
theorem C1_counterexample :
    resolveSingleColumn ["Content", "Content Type"] "content" =
      .resolved "Content Type" none ∧
    "Content" ∈ ["Content", "Content Type"] ∧
    strLower "Content" = strLower "content" ∧
    "Content Type" ≠ "Content" := by
  refine ⟨by rfl, by simp, by rfl, by decide⟩

/-- The claim's well-formedness condition on a payload: a present rows
value supports len(). -/
def rowsOk (d : List (String × Jv)) : Prop :=
  ∀ v, lookupKey d "rows" = some v → (pyLen v).isSome

/-- The hybrid condition exactly as the claim states it: row count
> 10, or at least 2 source_ keys, or (true, uncapped) nesting depth
> 3. -/
def claimHybridB (d : List (String × Jv)) : Bool :=
  (match lookupKey d "rows" with
   | some v =>
     match pyLen v with
     | some n => decide (n > 10)
     | none => false
   | none => false) ||
  decide (countSources d ≥ 2) || decide (trueDepth (Jv.obj d) > 3)

theorem isComplex_eq_decide (d : List (String × Jv)) :
    isComplexStructure d = decide (3 < trueDepth (Jv.obj d)) := by
  cases hc : isComplexStructure d with
  | false =>
    have h : ¬ 3 < trueDepth (Jv.obj d) := by
      intro h
      rw [(isComplex_iff d).2 h] at hc
      exact Bool.noConfusion hc
    simp [h]
  | true => simp [(isComplex_iff d).1 hc]

/-- On a nonempty, rows-well-formed payload, the formatter's hybrid
test computes exactly the claim's condition (the depth cap in
count_nesting does not change the outcome of the > 3 comparison). -/
theorem shouldUseHybrid_eq (d : List (String × Jv)) (hne : d ≠ []) (hro : rowsOk d) :
    shouldUseHybrid (some d) = some (claimHybridB d) := by
  have hie : d.isEmpty = false := by
    cases hd : d.isEmpty
    · rfl
    · exact absurd (List.isEmpty_iff.1 hd) hne
  cases hrows : lookupKey d "rows" with
  | none => simp [shouldUseHybrid, claimHybridB, hie, hrows, isComplex_eq_decide]
  | some v =>
    rcases Option.isSome_iff_exists.1 (hro v hrows) with ⟨n, hn⟩
    by_cases h10 : n > 10
    · simp [shouldUseHybrid, claimHybridB, hie, hrows, hn, h10]
    · simp [shouldUseHybrid, claimHybridB, hie, hrows, hn, h10, isComplex_eq_decide]

/-- C3: format_response is a pure function implementing the claimed
cascade: explicit JSON wins (payload attached, fixed confirmation
answer); an empty/absent payload gives NL with data = null; otherwise
Hybrid exactly when row count > 10, or source_ keys ≥ 2, or nesting
depth > 3 (the capped walk agreeing with the uncapped depth on that
comparison); otherwise NL with the payload suppressed. -/
theorem C3_format_cascade (answer agent : String) (data : Option (List (String × Jv))) :
    (formatResponse answer data agent true =
      some ⟨"Results returned in JSON format", some (data.getD []), agent⟩) ∧
    ((data = none ∨ data = some []) →
      formatResponse answer data agent false = some ⟨answer, none, agent⟩) ∧
    (∀ d, data = some d → d ≠ [] → rowsOk d →
      formatResponse answer data agent false =
        some (if claimHybridB d then ⟨answer, some d, agent⟩
          else ⟨answer, none, agent⟩)) := by
  refine ⟨rfl, ?_, ?_⟩
  · rintro (rfl | rfl) <;> rfl
  · rintro d rfl hne hro
    unfold formatResponse
    rw [shouldUseHybrid_eq d hne hro]
    cases hcb : claimHybridB d <;>
      simp [formatHybrid, formatNaturalLanguage]

theorem C3_format_cascade_witness :
    formatResponse "ans" (some [("rows", Jv.arr (List.replicate 11 (Jv.num 1)))])
        "agent" false =
      some ⟨"ans", some [("rows", Jv.arr (List.replicate 11 (Jv.num 1)))], "agent"⟩ ∧
    formatResponse "ans" none "agent" false = some ⟨"ans", none, "agent"⟩ := by
  constructor
  · have h := (C3_format_cascade "ans" "agent"
        (some [("rows", Jv.arr (List.replicate 11 (Jv.num 1)))])).2.2
      [("rows", Jv.arr (List.replicate 11 (Jv.num 1)))] rfl (List.cons_ne_nil _ _)
      (by
        intro v hv
        have hv' : some (Jv.arr (List.replicate 11 (Jv.num 1))) = some v := by
          rw [← hv]; rfl
        cases hv'
        rfl)
    rw [h]
    rfl
  · exact (C3_format_cascade "ans" "agent" none).2.1 (Or.inl rfl)

theorem anyEq_iff (l : List String) (s : String) : l.any (strEqB s) = true ↔ s ∈ l := by
  rw [List.any_eq_true]
  constructor
  · rintro ⟨x, hx, he⟩
    rw [(strEqB_iff _ _).1 he]
    exact hx
  · intro h
    exact ⟨s, h, (strEqB_iff s s).2 rfl⟩

theorem append_ne_empty_left (s t : String) (h : s.data ≠ []) : s ++ t ≠ "" := by
  intro he
  have h2 := congrArg String.data he
  rw [String.data_append] at h2
  rcases List.append_eq_nil.1 h2 with ⟨ha, _⟩
  exact h ha

theorem append3_ne_empty (s t u : String) (h : s.data ≠ []) : s ++ t ++ u ≠ "" := by
  intro he
  have h2 := congrArg String.data he
  rw [String.data_append, String.data_append] at h2
  rcases List.append_eq_nil.1 h2 with ⟨h3, _⟩
  rcases List.append_eq_nil.1 h3 with ⟨h4, _⟩
  exact h h4

/-- C4: the extended tier is enabled iff the lowercased query contains
a trigger keyword or some parsed metric/dimension is extended; when
enabled a nonempty human-readable reason is recorded; and the flag at
the end of the request equals the flag computed at tier resolution
(no later stage of the request disables it). -/
theorem C4_extended_tier :
    (∀ (query : String) (ms ds : List String),
      ((checkExtendedTriggers query ms ds).enabled = true ↔
        (∃ t ∈ EXTENDED_TRIGGERS, strContainsB (strLower query) t = true) ∨
        (∃ m ∈ ms, m ∈ extendedMetricNames) ∨
        (∃ d ∈ ds, d ∈ extendedDimensionNames)) ∧
      ((checkExtendedTriggers query ms ds).enabled = true →
        (checkExtendedTriggers query ms ds).reason ≠ "")) ∧
    (∀ (env : AnalyticsEnv) (query : String) (pid dpid : Option String) (jr : Bool)
      (p : String),
      (match truthyStr pid with
       | some x => some x
       | none => truthyStr dpid) = some p →
      (analyticsProcess env query pid dpid jr).extendedAtEnd =
        (checkExtendedTriggers query (parseQuery env.parseOutcome).metrics
          ((parseQuery env.parseOutcome).dimensions.getD [])).enabled) := by
  constructor
  · intro query ms ds
    cases hft : firstTrigger (strLower query) with
    | some t =>
      have hft' : EXTENDED_TRIGGERS.find? (fun t => strContainsB (strLower query) t)
          = some t := by simpa [firstTrigger] using hft
      have hst : checkExtendedTriggers query ms ds =
          ⟨true, "query mentions " ++ quoted t⟩ := by
        simp [checkExtendedTriggers, hft]
      rw [hst]
      refine ⟨⟨fun _ => Or.inl ⟨t, List.mem_of_find?_eq_some hft',
        List.find?_some hft'⟩, fun _ => rfl⟩, fun _ => ?_⟩
      exact append_ne_empty_left "query mentions " (quoted t) (by decide)
    | none =>
      have hnone := List.find?_eq_none.1 (by simpa [firstTrigger] using hft)
      cases hfm : ms.find? (fun m => extendedMetricNames.any (strEqB m)) with
      | some m =>
        have hst : checkExtendedTriggers query ms ds =
            ⟨true, "metric " ++ quoted m ++ " requires extended tier"⟩ := by
          simp [checkExtendedTriggers, hft, hfm]
        rw [hst]
        have hm1 := List.find?_some hfm
        have hmm : m ∈ extendedMetricNames := (anyEq_iff _ _).1 hm1
        refine ⟨⟨fun _ => Or.inr (Or.inl ⟨m, List.mem_of_find?_eq_some hfm, hmm⟩),
          fun _ => rfl⟩, fun _ => ?_⟩
        exact append3_ne_empty "metric " (quoted m) " requires extended tier" (by decide)
      | none =>
        have hmnone := List.find?_eq_none.1 hfm
        cases hfd : ds.find? (fun d => extendedDimensionNames.any (strEqB d)) with
        | some d0 =>
          have hst : checkExtendedTriggers query ms ds =
              ⟨true, "dimension " ++ quoted d0 ++ " requires extended tier"⟩ := by
            simp [checkExtendedTriggers, hft, hfm, hfd]
          rw [hst]
          have hd1 := List.find?_some hfd
          have hdd : d0 ∈ extendedDimensionNames := (anyEq_iff _ _).1 hd1
          refine ⟨⟨fun _ => Or.inr (Or.inr ⟨d0, List.mem_of_find?_eq_some hfd, hdd⟩),
            fun _ => rfl⟩, fun _ => ?_⟩
          exact append3_ne_empty "dimension " (quoted d0) " requires extended tier"
            (by decide)
        | none =>
          have hdnone := List.find?_eq_none.1 hfd
          have hst : checkExtendedTriggers query ms ds = ⟨false, ""⟩ := by
            simp [checkExtendedTriggers, hft, hfm, hfd]
          rw [hst]
          constructor
          · constructor
            · intro h
              exact absurd h (by simp)
            · rintro (⟨t, ht, hc⟩ | ⟨m, hm, hmem⟩ | ⟨d0, hd0, hmem⟩)
              · exact absurd hc (hnone t ht)
              · exact absurd ((anyEq_iff _ _).2 hmem) (hmnone m hm)
              · exact absurd ((anyEq_iff _ _).2 hmem) (hdnone d0 hd0)
          · intro h
            exact absurd h (by simp)
  · intro env query pid dpid jr p hres
    have hproc : analyticsProcess env query pid dpid jr =
        analyticsPipelineCore env query jr := by
      unfold analyticsProcess
      rw [hres]
    rw [hproc]
    simp only [analyticsPipelineCore]
    cases hv : (resolveAndValidate query (parseQuery env.parseOutcome).metrics
        ((parseQuery env.parseOutcome).dimensions.getD [])).2 with
    | error msg => rfl
    | ok v =>
      cases hga : env.ga4Outcome with
      | error e => rfl
      | ok data => rfl

theorem C4_extended_tier_witness :
    ((checkExtendedTriggers "revenue by country" ["totalRevenue"] ["country"]).enabled
        = true ↔
      (∃ t ∈ EXTENDED_TRIGGERS,
        strContainsB (strLower "revenue by country") t = true) ∨
      (∃ m ∈ ["totalRevenue"], m ∈ extendedMetricNames) ∨
      (∃ d ∈ ["country"], d ∈ extendedDimensionNames)) ∧
    (analyticsProcess ⟨.error (), .error "api", .error ()⟩ "top pages" (some "9")
        none false).extendedAtEnd =
      (checkExtendedTriggers "top pages"
        (parseQuery (Except.error ())).metrics
        ((parseQuery (Except.error ())).dimensions.getD [])).enabled :=
  ⟨(C4_extended_tier.1 "revenue by country" ["totalRevenue"] ["country"]).1,
    C4_extended_tier.2 ⟨.error (), .error "api", .error ()⟩ "top pages" (some "9")
      none false "9" rfl⟩

/-- The validation message produced for the default metric "users"
against either tier's allowlist. -/
def usersNotValidMsg : String :=
  "Metric " ++ quoted "users" ++ " is not valid. Did you mean: " ++
    joinComma (["newUsers", "activeUsers"].map quoted) ++
    "? Please use exact GA4 field names."

/-- C10: the default metric name "users" is in neither CORE_METRICS
nor EXTENDED_METRICS, so every analytics request whose parse output
falls back to the default metric (extraction failed, or returned no
metrics) fails validation with a ValidationError-shaped response
(answer contains Did-you-mean suggestions, data = null) and never
reaches the execute stage. -/
theorem C10_default_metric_rejected :
    ("users" ∉ coreMetricNames ∧ "users" ∉ extendedMetricNames) ∧
    (∀ (env : AnalyticsEnv) (query : String) (pid dpid : Option String) (jr : Bool)
      (p : String),
      (match truthyStr pid with
       | some x => some x
       | none => truthyStr dpid) = some p →
      (env.parseOutcome = .error () ∨
        ∃ r, env.parseOutcome = .ok r ∧ (r.metrics = none ∨ r.metrics = some [])) →
      (analyticsProcess env query pid dpid jr).resp.answer = usersNotValidMsg ∧
      (analyticsProcess env query pid dpid jr).resp.data = none ∧
      (analyticsProcess env query pid dpid jr).ga4Called = false ∧
      strContainsB (analyticsProcess env query pid dpid jr).resp.answer
        "Did you mean" = true) := by
  constructor
  · exact ⟨by decide, by decide⟩
  · intro env query pid dpid jr p hres hdef
    have hproc : analyticsProcess env query pid dpid jr =
        analyticsPipelineCore env query jr := by
      unfold analyticsProcess
      rw [hres]
    have hm : (parseQuery env.parseOutcome).metrics = ["users"] := by
      rcases hdef with h | ⟨r, hr, hcase⟩
      · rw [h]
        rfl
      · rw [hr]
        rcases hcase with h2 | h2 <;> simp [parseQuery, h2]
    rw [hproc]
    simp only [analyticsPipelineCore]
    rw [hm]
    cases he : (checkExtendedTriggers query ["users"]
        ((parseQuery env.parseOutcome).dimensions.getD [])).enabled with
    | false =>
      have hstv : (resolveAndValidate query ["users"]
          ((parseQuery env.parseOutcome).dimensions.getD [])).2 =
          Except.error usersNotValidMsg := by
        simp only [resolveAndValidate, he]
        rfl
      rw [hstv]
      exact ⟨rfl, rfl, rfl, by rfl⟩
    | true =>
      have hstv : (resolveAndValidate query ["users"]
          ((parseQuery env.parseOutcome).dimensions.getD [])).2 =
          Except.error usersNotValidMsg := by
        simp only [resolveAndValidate, he]
        rfl
      rw [hstv]
      exact ⟨rfl, rfl, rfl, by rfl⟩

theorem C10_default_metric_rejected_witness :
    (analyticsProcess ⟨.error (), .ok [], .ok "sum"⟩ "how many people visited"
        (some "123") none false).resp.answer = usersNotValidMsg ∧
    (analyticsProcess ⟨.error (), .ok [], .ok "sum"⟩ "how many people visited"
        (some "123") none false).resp.data = none ∧
    (analyticsProcess ⟨.error (), .ok [], .ok "sum"⟩ "how many people visited"
        (some "123") none false).ga4Called = false ∧
    strContainsB (analyticsProcess ⟨.error (), .ok [], .ok "sum"⟩
        "how many people visited" (some "123") none false).resp.answer
      "Did you mean" = true :=
  C10_default_metric_rejected.2 ⟨.error (), .ok [], .ok "sum"⟩
    "how many people visited" (some "123") none false "123" rfl (Or.inl rfl)

theorem cutoff04_toRat : cutoff04.toRat = 2 / 5 := by
  norm_num [cutoff04, Ratio.toRat]

theorem cutoff05_toRat : cutoff05.toRat = 1 / 2 := by
  norm_num [cutoff05, Ratio.toRat]

theorem getSuggestions_props (term : String) (cands : List String) :
    (getSuggestions term cands 3).length ≤ 3 ∧
    (∀ c ∈ getSuggestions term cands 3, c ∈ cands ∧
      (2 : ℚ) / 5 ≤ (gcmScore (strLower term) (strLower c)).toRat) ∧
    List.Sorted (fun x y => (gcmScore (strLower term) (strLower y)).rle
      (gcmScore (strLower term) (strLower x))) (getSuggestions term cands 3) := by
  unfold getSuggestions
  by_cases hc : cands.isEmpty
  · rw [if_pos hc]
    exact ⟨by simp, by simp, by simp⟩
  · rw [if_neg hc]
    have hmb := mapBack_props (gcmScore (strLower term)) cands
      (getCloseMatches (strLower term) (cands.map strLower) 3 cutoff04) []
      (getCloseMatches_sorted _ _ _ _) (by simp) (by simp)
    refine ⟨?_, ?_, hmb.1⟩
    · have h1 := hmb.2.2
      have h2 := getCloseMatches_length (strLower term) (cands.map strLower) 3 cutoff04
      simp only [List.length_nil] at h1
      omega
    · intro c hcmem
      rcases hmb.2.1 c hcmem with h | ⟨h1, h2⟩
      · simp at h
      · refine ⟨h1, ?_⟩
        have := (getCloseMatches_mem h2).2
        rw [← cutoff04_toRat]
        exact (Ratio.rle_iff _ _).1 this

theorem analyticsSuggestions_props (field : String) (validFields : List String) :
    (analyticsSuggestions field validFields).length ≤ 3 ∧
    (∀ c ∈ analyticsSuggestions field validFields, c ∈ validFields ∧
      (1 : ℚ) / 2 ≤ (gcmScore (strLower field) (strLower c)).toRat) ∧
    List.Sorted (fun x y => (gcmScore (strLower field) (strLower y)).rle
      (gcmScore (strLower field) (strLower x)))
      (analyticsSuggestions field validFields) := by
  unfold analyticsSuggestions analyticsCloseMatches
  have hmb := mapBack_props (gcmScore (strLower field)) validFields
    (getCloseMatches (strLower field) (validFields.map strLower) 3 cutoff05) []
    (getCloseMatches_sorted _ _ _ _) (by simp) (by simp)
  refine ⟨?_, ?_, hmb.1⟩
  · have h1 := hmb.2.2
    have h2 := getCloseMatches_length (strLower field) (validFields.map strLower) 3 cutoff05
    simp only [List.length_nil] at h1
    omega
  · intro c hcmem
    rcases hmb.2.1 c hcmem with h | ⟨h1, h2⟩
    · simp at h
    · refine ⟨h1, ?_⟩
      have := (getCloseMatches_mem h2).2
      rw [← cutoff05_toRat]
      exact (Ratio.rle_iff _ _).1 this

/-- C2 (amended): when a SEO field term has no alias match, no exact
match, and no fuzzy match at the 0.8 acceptance threshold, resolution
fails and the failure message carries the _get_suggestions list: at
most 3 suggestions, each a catalog column with similarity ≥ 0.4
(cutoff 0.4) to the term, sorted descending by similarity.  The
analytics validator also fails on any non-allowlisted field and its
Did-you-mean list has at most 3 entries sorted descending by
similarity, but it uses cutoff 0.5, not 0.4 (each suggestion has
similarity ≥ 0.5, hence also ≥ 0.4). -/
theorem C2_failure_suggestions :
    (∀ (cols : List String) (userField : String),
      (∀ pr, COLUMN_ALIASES.find?
          (fun p => strEqB p.1 (strTrim (strLower userField))) = some pr →
        cols.any (strEqB pr.2) = false ∧ fuzzyMatch pr.2 cols = none) →
      cols.find? (fun col => strEqB (strLower col) (strTrim (strLower userField)))
        = none →
      fuzzyMatch userField cols = none →
      resolveSingleColumn cols userField =
        .failed (unknownFieldMsg userField (getSuggestions userField cols 3) cols)) ∧
    (∀ (term : String) (cands : List String),
      (getSuggestions term cands 3).length ≤ 3 ∧
      (∀ c ∈ getSuggestions term cands 3, c ∈ cands ∧
        (2 : ℚ) / 5 ≤ (gcmScore (strLower term) (strLower c)).toRat) ∧
      List.Sorted (fun x y => (gcmScore (strLower term) (strLower y)).rle
        (gcmScore (strLower term) (strLower x))) (getSuggestions term cands 3)) ∧
    (∀ (field ft : String) (validFields : List String),
      validFields.any (strEqB field) = false →
      ∃ msg, validateField field validFields ft = .error msg) ∧
    (∀ (field : String) (validFields : List String),
      (analyticsSuggestions field validFields).length ≤ 3 ∧
      (∀ c ∈ analyticsSuggestions field validFields, c ∈ validFields ∧
        (1 : ℚ) / 2 ≤ (gcmScore (strLower field) (strLower c)).toRat) ∧
      List.Sorted (fun x y => (gcmScore (strLower field) (strLower y)).rle
        (gcmScore (strLower field) (strLower x)))
        (analyticsSuggestions field validFields)) := by
  refine ⟨?_, getSuggestions_props, ?_, analyticsSuggestions_props⟩
  · intro cols userField halias hexact hfuzzy
    cases hal : COLUMN_ALIASES.find?
        (fun p => strEqB p.1 (strTrim (strLower userField))) with
    | none => simp [resolveSingleColumn, hal, resolveNonAlias, hexact, hfuzzy]
    | some pr =>
      obtain ⟨hany, hfz⟩ := halias pr hal
      simp [resolveSingleColumn, hal, hany, hfz, resolveNonAlias, hexact, hfuzzy]
  · intro field ft validFields h
    rw [validateField, h, if_neg Bool.false_ne_true]
    cases hcm : (analyticsCloseMatches field validFields).isEmpty with
    | true => exact ⟨_, rfl⟩
    | false => exact ⟨_, rfl⟩

theorem C2_failure_suggestions_witness :
    resolveSingleColumn ["Status Code", "Title 1"] "category" =
      .failed (unknownFieldMsg "category"
        (getSuggestions "category" ["Status Code", "Title 1"] 3)
        ["Status Code", "Title 1"]) ∧
    (getSuggestions "category" ["Status Code", "Title 1"] 3).length ≤ 3 ∧
    (∃ msg, validateField "users" ["sessions"] "Metric" = .error msg) := by
  refine ⟨C2_failure_suggestions.1 ["Status Code", "Title 1"] "category" ?_ ?_ ?_,
    (C2_failure_suggestions.2.1 "category" ["Status Code", "Title 1"]).1,
    C2_failure_suggestions.2.2.1 "users" "Metric" ["sessions"] ?_⟩
  · intro pr hpr
    have hn : COLUMN_ALIASES.find?
        (fun p => strEqB p.1 (strTrim (strLower "category"))) = none := by rfl
    rw [hn] at hpr
    cases hpr
  · rfl
  · rfl
  · rfl

/-- C2 counterexample: the analytics validator does not use the 0.4
cutoff.  Against the catalog ["sessions"], the term "users" has
similarity 6/13 ≈ 0.46 ≥ 0.4 to "sessions", so a 0.4-cutoff suggestion
list is ["sessions"]; the validator's 0.5-cutoff list is empty and its
ValidationError falls back to the no-suggestion wording. -/
theorem C2_counterexample :
    analyticsCloseMatches "users" ["sessions"] = [] ∧
    getCloseMatches (strLower "users") (["sessions"].map strLower) 3 cutoff04 =
      ["sessions"] ∧
    (2 : ℚ) / 5 ≤ (gcmScore "users" "sessions").toRat ∧
    validateField "users" ["sessions"] "Metric" =
      .error ("Metric " ++ quoted "users" ++ " is not recognized. Valid metrics " ++
        "include: " ++ joinComma (["sessions"].map quoted) ++
        ", and more. Please check GA4 documentation for exact field names.") := by
  refine ⟨by rfl, by rfl, ?_, by rfl⟩
  have h1 : (gcmScore "users" "sessions").num = 6 := by decide
  have h2 : (gcmScore "users" "sessions").den = 13 := by decide
  rw [Ratio.toRat, h1, h2]
  norm_num

theorem tdFields_scalar (l : List (String × Jv)) (h : ∀ p ∈ l, isScalar p.2 = true) :
    tdFields l = 0 := by
  induction l with
  | nil => rfl
  | cons p rest ih =>
    have h1 : trueDepth p.2 = 0 := by
      have hp := h p (List.mem_cons_self _ _)
      cases hv : p.2 with
      | null => rfl
      | bool _ => rfl
      | num _ => rfl
      | str _ => rfl
      | arr _ => rw [hv] at hp; simp [isScalar] at hp
      | obj _ => rw [hv] at hp; simp [isScalar] at hp
    have ht : tdFields (p :: rest) = max (trueDepth p.2) (tdFields rest) := rfl
    rw [ht, h1, ih (fun q hq => h q (List.mem_cons_of_mem _ hq))]
    simp

theorem tdItems_le (l : List Jv) (k : Nat) (h : ∀ x ∈ l, trueDepth x ≤ k) :
    tdItems l ≤ k := by
  induction l with
  | nil => exact Nat.zero_le k
  | cons x rest ih =>
    have ht : tdItems (x :: rest) = max (trueDepth x) (tdItems rest) := rfl
    rw [ht]
    have h1 := h x (List.mem_cons_self _ _)
    have h2 := ih (fun y hy => h y (List.mem_cons_of_mem _ hy))
    omega

theorem trueDepth_scalar_row (row : List (String × Jv))
    (h : ∀ p ∈ row, isScalar p.2 = true) : trueDepth (Jv.obj row) ≤ 1 := by
  cases row with
  | nil => exact Nat.zero_le 1
  | cons p rest =>
    have ht : trueDepth (Jv.obj (p :: rest)) = 1 + tdFields (p :: rest) := rfl
    rw [ht, tdFields_scalar _ h]

theorem seoDataDict_shape (rows : List (List (String × Jv))) (cols : List String)
    (hne : rows ≠ []) :
    seoDataDict rows cols =
      [("rows", Jv.arr (rows.map Jv.obj)), ("columns", Jv.arr (cols.map Jv.str)),
       ("total_rows", Jv.num rows.length)] := by
  have hie : rows.isEmpty = false := by
    cases hi : rows.isEmpty
    · rfl
    · exact absurd (List.isEmpty_iff.1 hi) hne
  simp [seoDataDict, hie]

theorem seoDataDict_depth (rows : List (List (String × Jv))) (cols : List String)
    (hne : rows ≠ [])
    (hsc : ∀ row ∈ rows, ∀ p ∈ row, isScalar p.2 = true) :
    trueDepth (Jv.obj (seoDataDict rows cols)) ≤ 3 := by
  rw [seoDataDict_shape rows cols hne]
  have hrows : trueDepth (Jv.arr (rows.map Jv.obj)) ≤ 2 := by
    cases hr : rows.map Jv.obj with
    | nil => exact Nat.zero_le 2
    | cons x rest =>
      have ht : trueDepth (Jv.arr (x :: rest)) = 1 + tdItems (x :: rest) := rfl
      rw [ht]
      have : tdItems (x :: rest) ≤ 1 := by
        rw [← hr]
        refine tdItems_le _ 1 ?_
        intro y hy
        rcases List.mem_map.1 hy with ⟨row, hrow, hrfl⟩
        rw [← hrfl]
        exact trueDepth_scalar_row row (hsc row hrow)
      omega
  have hcols : trueDepth (Jv.arr (cols.map Jv.str)) ≤ 2 := by
    cases hr : cols.map Jv.str with
    | nil => exact Nat.zero_le 2
    | cons x rest =>
      have ht : trueDepth (Jv.arr (x :: rest)) = 1 + tdItems (x :: rest) := rfl
      rw [ht]
      have : tdItems (x :: rest) ≤ 1 := by
        rw [← hr]
        refine tdItems_le _ 1 ?_
        intro y hy
        rcases List.mem_map.1 hy with ⟨c, _, hrfl⟩
        rw [← hrfl]
        exact Nat.zero_le 1
      omega
  have h1 : trueDepth (Jv.obj
      [("rows", Jv.arr (rows.map Jv.obj)), ("columns", Jv.arr (cols.map Jv.str)),
       ("total_rows", Jv.num rows.length)]) =
      1 + max (trueDepth (Jv.arr (rows.map Jv.obj)))
        (max (trueDepth (Jv.arr (cols.map Jv.str)))
          (max (trueDepth (Jv.num rows.length)) 0)) := rfl
  rw [h1]
  have h2 : trueDepth (Jv.num rows.length) = 0 := rfl
  omega

theorem claimHybridB_seoDataDict (rows : List (List (String × Jv))) (cols : List String)
    (hne : rows ≠ [])
    (hsc : ∀ row ∈ rows, ∀ p ∈ row, isScalar p.2 = true) :
    claimHybridB (seoDataDict rows cols) = decide (10 < rows.length) := by
  have hsh := seoDataDict_shape rows cols hne
  unfold claimHybridB
  have hlk : lookupKey (seoDataDict rows cols) "rows" =
      some (Jv.arr (rows.map Jv.obj)) := by
    rw [hsh]
    rfl
  rw [hlk]
  have hcs : countSources (seoDataDict rows cols) = 0 := by
    rw [hsh]
    rfl
  have hdep : ¬ 3 < trueDepth (Jv.obj (seoDataDict rows cols)) := by
    have := seoDataDict_depth rows cols hne hsc
    omega
  simp [pyLen, hcs, hdep]

/-- C7 (amended): in the SEO synthesize stage, with JSON not requested
and a non-empty transformed result (of scalar record rows), the
structured payload is attached iff the final row count lies in
(10, 100]: the SEO gate admits [10, 100], but the shared formatter it
delegates to then drops the payload again at exactly 10 rows, so 10
rows yield an NL-only response. -/
theorem C7_seo_hybrid_band (rows : List (List (String × Jv))) (cols : List String)
    (nl : String) (hne : rows ≠ [])
    (hsc : ∀ row ∈ rows, ∀ p ∈ row, isScalar p.2 = true) :
    seoSynthesizeResponse rows cols nl false =
      some ⟨nl, if 10 < rows.length ∧ rows.length ≤ 100
        then some (seoDataDict rows cols) else none, "seo"⟩ := by
  have h0 : rows.length ≠ 0 := by
    intro h
    exact hne (List.length_eq_zero.1 h)
  have hdne : seoDataDict rows cols ≠ [] := by
    rw [seoDataDict_shape rows cols hne]
    exact List.cons_ne_nil _ _
  have hro : rowsOk (seoDataDict rows cols) := by
    intro v hv
    rw [seoDataDict_shape rows cols hne] at hv
    have hv' : some (Jv.arr (rows.map Jv.obj)) = some v := by rw [← hv]; rfl
    cases hv'
    rfl
  by_cases hband : 10 ≤ rows.length ∧ rows.length ≤ 100
  · have hg : seoShouldUseHybrid rows.length = true := by
      simp [seoShouldUseHybrid, h0, hband]
    have hstep : seoSynthesizeResponse rows cols nl false =
        formatResponse nl (some (seoDataDict rows cols)) "seo" false := by
      simp only [seoSynthesizeResponse]
      rw [if_neg Bool.false_ne_true, hg, if_pos rfl]
    rw [hstep]
    unfold formatResponse
    rw [if_neg Bool.false_ne_true, shouldUseHybrid_eq _ hdne hro,
      claimHybridB_seoDataDict rows cols hne hsc]
    by_cases h10 : 10 < rows.length
    · rw [decide_eq_true h10,
        if_pos (show 10 < rows.length ∧ rows.length ≤ 100 from ⟨h10, hband.2⟩)]
      rfl
    · rw [decide_eq_false h10,
        if_neg (show ¬ (10 < rows.length ∧ rows.length ≤ 100) from fun hh => h10 hh.1)]
      rfl
  · have hg : seoShouldUseHybrid rows.length = false := by
      rw [seoShouldUseHybrid, if_neg h0]
      exact decide_eq_false hband
    have hstep : seoSynthesizeResponse rows cols nl false =
        formatResponse nl none "seo" false := by
      simp only [seoSynthesizeResponse]
      rw [if_neg Bool.false_ne_true, hg, if_neg Bool.false_ne_true]
    rw [hstep]
    rw [show formatResponse nl none "seo" false = some ⟨nl, none, "seo"⟩ from rfl,
      if_neg (show ¬ (10 < rows.length ∧ rows.length ≤ 100) from
        fun hh => hband ⟨le_of_lt hh.1, hh.2⟩)]

theorem C7_seo_hybrid_band_witness :
    seoSynthesizeResponse (List.replicate 11 [("Address", Jv.str "u")]) ["Address"]
        "summary" false =
      some ⟨"summary",
        some (seoDataDict (List.replicate 11 [("Address", Jv.str "u")]) ["Address"]),
        "seo"⟩ := by
  have h := C7_seo_hybrid_band (List.replicate 11 [("Address", Jv.str "u")]) ["Address"]
    "summary"
    (fun hh => by simpa using congrArg List.length hh)
    (by
      intro row hrow p hp
      rw [List.eq_of_mem_replicate hrow] at hp
      have hp' : p = ("Address", Jv.str "u") := by simpa using hp
      rw [hp']
      rfl)
  rw [h, if_pos (by simp)]

/-- C7 counterexample: a 10-row result (inside the claimed [10, 100]
band) yields an NL-only response with data = null: the SEO gate passes
the payload on, but the shared formatter suppresses it because
10 is not > 10. -/
theorem C7_counterexample :
    seoSynthesizeResponse (List.replicate 10 [("Address", Jv.str "u")]) ["Address"]
        "s" false = some ⟨"s", none, "seo"⟩ ∧
    10 ≤ (List.replicate 10 [("Address", Jv.str "u")]).length ∧
    (List.replicate 10 [("Address", Jv.str "u")]).length ≤ 100 := by
  refine ⟨by rfl, by simp, by simp⟩

theorem truthyData_some {d : List (String × Jv)} (h : d ≠ []) :
    truthyData (some d) = some d := by
  have hie : d.isEmpty = false := by
    cases hi : d.isEmpty
    · rfl
    · exact absurd (List.isEmpty_iff.1 hi) h
  simp [truthyData, hie]

theorem findArrival (g : Nat → Option TaskOutcome) :
    ∀ (arr : List Nat) (i : Nat), i ∈ arr →
    (arr.map (fun j => (j, g j))).find? (fun p => p.1 == i) = some (i, g i) := by
  intro arr
  induction arr with
  | nil =>
    intro i hi
    simp at hi
  | cons j rest ih =>
    intro i hi
    by_cases hji : j = i
    · subst hji
      simp [List.find?]
    · have hi' : i ∈ rest := by
        rcases List.mem_cons.1 hi with h | h
        · exact absurd h.symm hji
        · exact h
      have hbeq : (j == i) = false := by
        simp [hji]
      simp only [List.map_cons, List.find?]
      rw [hbeq]
      exact ih i hi'

/-- asyncio.gather semantics: when every task index arrives exactly
once (in any order), the gathered list is the outcome list in
submission order. -/
theorem gather_perm (outcomes : List TaskOutcome) (arrival : List Nat)
    (h : arrival.Perm (List.range outcomes.length)) :
    gatherModel outcomes arrival = outcomes.map some := by
  unfold gatherModel
  apply List.ext_get
  · simp
  intro i h1 h2
  have hlt : i < outcomes.length := by simpa using h2
  have hi : i ∈ arrival := h.mem_iff.2 (List.mem_range.2 hlt)
  rw [List.get_eq_getElem, List.get_eq_getElem]
  simp only [List.getElem_map, List.getElem_range]
  rw [findArrival (fun j => outcomes.get? j) arrival i hi]
  have hget : outcomes.get? i = some outcomes[i] := by
    rw [List.get?_eq_getElem?, List.getElem?_eq_getElem hlt]
  rw [hget]

/-- C9: multi-agent aggregation numbers sources in task-submission
order: for two successful sub-tasks with non-empty data, the map is
source_1 = first task's data, source_2 = second task's data,
whatever the completion (arrival) order was. -/
theorem C9_submission_order (A B : AgentResp) (dA dB : List (String × Jv))
    (hA : A.data = some dA) (hB : B.data = some dB) (hdA : dA ≠ []) (hdB : dB ≠ [])
    (arrival : List Nat) (hperm : arrival.Perm [0, 1]) :
    aggregateData (executeTasksParallel [.success A, .success B] arrival) =
      [("source_1", Jv.obj dA), ("source_2", Jv.obj dB)] := by
  have hperm' : arrival.Perm (List.range 2) := by
    rw [show List.range 2 = [0, 1] from by decide]
    exact hperm
  have hexec : executeTasksParallel [.success A, .success B] arrival = [A, B] := by
    unfold executeTasksParallel
    rw [gather_perm [.success A, .success B] arrival hperm']
    rfl
  rw [hexec]
  have hda := truthyData_some hdA
  have hdb := truthyData_some hdB
  have henum : ([A, B]).enum = [(0, A), (1, B)] := rfl
  simp only [aggregateData, henum, List.filterMap_cons, List.filterMap_nil,
    hA, hB, hda, hdb]
  rfl

theorem C9_submission_order_witness :
    aggregateData (executeTasksParallel
      [.success ⟨"a", some [("k", Jv.num 1)], "analytics"⟩,
       .success ⟨"b", some [("m", Jv.num 2)], "seo"⟩] [1, 0]) =
      [("source_1", Jv.obj [("k", Jv.num 1)]),
       ("source_2", Jv.obj [("m", Jv.num 2)])] :=
  C9_submission_order ⟨"a", some [("k", Jv.num 1)], "analytics"⟩
    ⟨"b", some [("m", Jv.num 2)], "seo"⟩ [("k", Jv.num 1)] [("m", Jv.num 2)]
    rfl rfl (List.cons_ne_nil _ _) (List.cons_ne_nil _ _) [1, 0] (by decide)

theorem strEqB_symm (a b : String) : strEqB a b = strEqB b a := by
  by_cases h : a = b
  · rw [h]
  · have h1 : strEqB a b = false := by
      cases hc : strEqB a b
      · rfl
      · exact absurd ((strEqB_iff _ _).1 hc) h
    have h2 : strEqB b a = false := by
      cases hc : strEqB b a
      · rfl
      · exact absurd ((strEqB_iff _ _).1 hc).symm h
    rw [h1, h2]

theorem cellEqB_refl (c : Cell) : cellEqB c c = true := by
  cases c with
  | str s => exact (strEqB_iff s s).2 rfl
  | num x => simp [cellEqB, PyNum.eqB, PyNum.peq]

theorem cellEqB_symm (a b : Cell) : cellEqB a b = cellEqB b a := by
  cases a with
  | str sa =>
    cases b with
    | str sb => exact strEqB_symm sa sb
    | num _ => rfl
  | num na =>
    cases b with
    | str _ => rfl
    | num nb =>
      simp only [cellEqB, PyNum.eqB]
      rw [decide_eq_decide]
      unfold PyNum.peq
      exact eq_comm

theorem cellEqB_symmetric : Symmetric (fun a b : Cell => cellEqB a b = false) := by
  intro a b h
  show cellEqB b a = false
  rw [cellEqB_symm]
  exact h

theorem dedupAux_props : ∀ (l seen : List Cell),
    List.Pairwise (fun a b => cellEqB a b = false) (dedupCellsAux seen l) ∧
    (∀ c ∈ dedupCellsAux seen l, c ∈ l ∧ ∀ s ∈ seen, cellEqB s c = false) := by
  intro l
  induction l with
  | nil =>
    intro seen
    exact ⟨List.Pairwise.nil, by simp [dedupCellsAux]⟩
  | cons c rest ih =>
    intro seen
    by_cases hs : seen.any (fun s => cellEqB s c) = true
    · have hd : dedupCellsAux seen (c :: rest) = dedupCellsAux seen rest := by
        simp [dedupCellsAux, hs]
      rw [hd]
      refine ⟨(ih seen).1, ?_⟩
      intro x hx
      exact ⟨List.mem_cons_of_mem _ ((ih seen).2 x hx).1, ((ih seen).2 x hx).2⟩
    · have hs' : seen.any (fun s => cellEqB s c) = false := by
        cases h : seen.any (fun s => cellEqB s c)
        · rfl
        · exact absurd h hs
      have hall : ∀ s ∈ seen, cellEqB s c = false := by
        intro s hsm
        cases h : cellEqB s c
        · rfl
        · exact absurd (List.any_eq_true.2 ⟨s, hsm, h⟩) hs
      have hd : dedupCellsAux seen (c :: rest) = c :: dedupCellsAux (c :: seen) rest := by
        simp [dedupCellsAux, hs']
      rw [hd]
      have iht := ih (c :: seen)
      constructor
      · refine List.Pairwise.cons ?_ iht.1
        intro b hb
        exact (iht.2 b hb).2 c (List.mem_cons_self _ _)
      · intro x hx
        rcases List.mem_cons.1 hx with h | h
        · subst h
          exact ⟨List.mem_cons_self _ _, hall⟩
        · have hrec := iht.2 x h
          exact ⟨List.mem_cons_of_mem _ hrec.1,
            fun s hsm => hrec.2 s (List.mem_cons_of_mem _ hsm)⟩

theorem dedupAux_cover : ∀ (l seen : List Cell), ∀ v ∈ l,
    (∃ s ∈ seen, cellEqB s v = true) ∨
    ∃ k ∈ dedupCellsAux seen l, cellEqB k v = true := by
  intro l
  induction l with
  | nil =>
    intro seen v hv
    simp at hv
  | cons c rest ih =>
    intro seen v hv
    by_cases hs : seen.any (fun s => cellEqB s c) = true
    · have hd : dedupCellsAux seen (c :: rest) = dedupCellsAux seen rest := by
        simp [dedupCellsAux, hs]
      rw [hd]
      rcases List.mem_cons.1 hv with h | h
      · subst h
        rcases List.any_eq_true.1 hs with ⟨s, hsm, hsc⟩
        exact Or.inl ⟨s, hsm, hsc⟩
      · exact ih seen v h
    · have hs' : seen.any (fun s => cellEqB s c) = false := by
        cases h : seen.any (fun s => cellEqB s c)
        · rfl
        · exact absurd h hs
      have hd : dedupCellsAux seen (c :: rest) = c :: dedupCellsAux (c :: seen) rest := by
        simp [dedupCellsAux, hs']
      rw [hd]
      rcases List.mem_cons.1 hv with h | h
      · subst h
        exact Or.inr ⟨_, List.mem_cons_self _ _, cellEqB_refl _⟩
      · rcases ih (c :: seen) v h with ⟨s, hsm, hsv⟩ | ⟨k, hk, hkv⟩
        · rcases List.mem_cons.1 hsm with h2 | h2
          · subst h2
            exact Or.inr ⟨s, List.mem_cons_self _ _, hsv⟩
          · exact Or.inl ⟨s, h2, hsv⟩
        · exact Or.inr ⟨k, List.mem_cons_of_mem _ hk, hkv⟩

theorem groupKeys_props (df : DFrame) (gi : Nat) :
    List.Pairwise (fun a b => cellEqB a b = false) (groupKeys df gi) ∧
    (∀ k ∈ groupKeys df gi,
      ∃ v ∈ df.rows.map (fun r => cellAt r gi), cellEqB k v = true) ∧
    (∀ v ∈ df.rows.map (fun r => cellAt r gi),
      ∃ k ∈ groupKeys df gi, cellEqB k v = true) ∧
    List.Sorted keyAsc (groupKeys df gi) := by
  unfold groupKeys dedupCells
  have hperm := List.perm_insertionSort keyAsc
    (dedupCellsAux [] (df.rows.map (fun r => cellAt r gi)))
  have hdp := dedupAux_props (df.rows.map (fun r => cellAt r gi)) []
  refine ⟨hdp.1.perm hperm.symm (fun h => cellEqB_symmetric h), ?_, ?_,
    List.sorted_insertionSort keyAsc _⟩
  · intro k hk
    have hmem := (hdp.2 k (hperm.subset hk)).1
    exact ⟨k, hmem, cellEqB_refl k⟩
  · intro v hv
    rcases dedupAux_cover (df.rows.map (fun r => cellAt r gi)) [] v hv with
      ⟨s, hs, _⟩ | ⟨k, hk, hkv⟩
    · simp at hs
    · exact ⟨k, hperm.symm.subset hk, hkv⟩

/-- The claim's "exactly one row per distinct value of the group
column": output-row keys are pairwise distinct, every output key is a
group value of the input, and every group value of the input is
represented. -/
def oneRowPer (df : DFrame) (groupCol : String) (rows : List (List Cell)) : Prop :=
  List.Pairwise (fun r1 r2 => cellEqB (cellAt r1 0) (cellAt r2 0) = false) rows ∧
  (∀ r ∈ rows, ∃ v ∈ df.rows.map (fun r' => cellAt r' (colIndex df.cols groupCol)),
    cellEqB (cellAt r 0) v = true) ∧
  (∀ v ∈ df.rows.map (fun r' => cellAt r' (colIndex df.cols groupCol)),
    ∃ r ∈ rows, cellEqB (cellAt r 0) v = true)

theorem rows_key_props (df : DFrame) (groupCol : String) (keys : List Cell)
    (hpw : List.Pairwise (fun a b => cellEqB a b = false) keys)
    (hc1 : ∀ k ∈ keys,
      ∃ v ∈ df.rows.map (fun r' => cellAt r' (colIndex df.cols groupCol)),
        cellEqB k v = true)
    (hc2 : ∀ v ∈ df.rows.map (fun r' => cellAt r' (colIndex df.cols groupCol)),
      ∃ k ∈ keys, cellEqB k v = true)
    (mk : Cell → List Cell) (hmk : ∀ k, cellAt (mk k) 0 = k)
    (rows : List (List Cell)) (hperm : rows.Perm (keys.map mk)) :
    oneRowPer df groupCol rows := by
  have hsym : Symmetric
      (fun r1 r2 : List Cell => cellEqB (cellAt r1 0) (cellAt r2 0) = false) := by
    intro r1 r2 h
    show cellEqB (cellAt r2 0) (cellAt r1 0) = false
    rw [cellEqB_symm]
    exact h
  have hpwm : List.Pairwise
      (fun r1 r2 => cellEqB (cellAt r1 0) (cellAt r2 0) = false) (keys.map mk) := by
    rw [List.pairwise_map]
    refine hpw.imp ?_
    intro a b hab
    show cellEqB (cellAt (mk a) 0) (cellAt (mk b) 0) = false
    rw [hmk, hmk]
    exact hab
  refine ⟨hpwm.perm hperm.symm (fun h => hsym h), ?_, ?_⟩
  · intro r hr
    rcases List.mem_map.1 (hperm.subset hr) with ⟨k, hk, hrfl⟩
    rcases hc1 k hk with ⟨v, hv, hkv⟩
    refine ⟨v, hv, ?_⟩
    rw [← hrfl, hmk]
    exact hkv
  · intro v hv
    rcases hc2 v hv with ⟨k, hk, hkv⟩
    refine ⟨mk k, hperm.symm.subset (List.mem_map_of_mem mk hk), ?_⟩
    rw [hmk]
    exact hkv

theorem ofInt_ple_of_le {a b : Nat} (h : a ≤ b) :
    (PyNum.ofInt a).ple (PyNum.ofInt b) := by
  unfold PyNum.ofInt PyNum.ple
  simp
  exact_mod_cast h

theorem sorted_map_of_sorted {α β : Type} {r : α → α → Prop} {s : β → β → Prop}
    (f : α → β) (h : ∀ a b, r a b → s (f a) (f b)) (l : List α)
    (hl : List.Sorted r l) : List.Sorted s (l.map f) := by
  unfold List.Sorted at hl ⊢
  rw [List.pairwise_map]
  exact hl.imp (fun hab => h _ _ hab)

/-- C6. The spec claims every aggregation mode yields one row per
distinct group value sorted descending by the aggregated value.  The
"count" and "percentage" branches do sort descending (by the count in
column 1, resp. the rounded percentage in column 2), but the "sum" and
"average" branches perform no sort_values at all: their rows come out
in pandas groupby key order, i.e. ascending by the group key.  This
amended statement records what each branch actually guarantees (for
sum/average under the conditions that make the branch well-defined:
some numeric column exists and the group column is not numeric). -/
theorem C6_grouping (df : DFrame) (groupCol : String) :
    (oneRowPer df groupCol (applyGrouping df groupCol "count").rows ∧
     List.Sorted (fun r1 r2 => (cellNum (cellAt r2 1)).ple (cellNum (cellAt r1 1)))
       (applyGrouping df groupCol "count").rows) ∧
    (oneRowPer df groupCol (applyGrouping df groupCol "percentage").rows ∧
     List.Sorted (fun r1 r2 => (cellNum (cellAt r2 2)).ple (cellNum (cellAt r1 2)))
       (applyGrouping df groupCol "percentage").rows) ∧
    (numericColIdxs df ≠ [] →
      colIndex df.cols groupCol ∉ numericColIdxs df →
      oneRowPer df groupCol (applyGrouping df groupCol "sum").rows ∧
      List.Sorted (fun r1 r2 => keyAsc (cellAt r1 0) (cellAt r2 0))
        (applyGrouping df groupCol "sum").rows) ∧
    (numericColIdxs df ≠ [] →
      colIndex df.cols groupCol ∉ numericColIdxs df →
      oneRowPer df groupCol (applyGrouping df groupCol "average").rows ∧
      List.Sorted (fun r1 r2 => keyAsc (cellAt r1 0) (cellAt r2 0))
        (applyGrouping df groupCol "average").rows) := by
  have hkp := groupKeys_props df (colIndex df.cols groupCol)
  have hceq : applyGrouping df groupCol "count" =
      ⟨[groupCol, "count"],
        (((groupKeys df (colIndex df.cols groupCol)).map
            (fun k => (k, countKey df (colIndex df.cols groupCol) k))).insertionSort
              byCountDesc).map
          (fun p => [p.1, Cell.num (PyNum.ofInt p.2)])⟩ := rfl
  have hpeq : applyGrouping df groupCol "percentage" =
      ⟨[groupCol, "count", "percentage"],
        (((groupKeys df (colIndex df.cols groupCol)).map
            (fun k => (k, countKey df (colIndex df.cols groupCol) k,
              (((PyNum.ofInt (countKey df (colIndex df.cols groupCol) k)).divNat
                  df.rows.length).mulNat 100).round2))).insertionSort byPctDesc).map
          (fun p => [p.1, Cell.num (PyNum.ofInt p.2.1), Cell.num p.2.2])⟩ := rfl
  refine ⟨⟨?_, ?_⟩, ⟨?_, ?_⟩, ?_, ?_⟩
  · rw [hceq]
    have hp1 := (List.perm_insertionSort byCountDesc
      ((groupKeys df (colIndex df.cols groupCol)).map
        (fun k => (k, countKey df (colIndex df.cols groupCol) k)))).map
      (fun p : Cell × Nat => [p.1, Cell.num (PyNum.ofInt p.2)])
    rw [List.map_map] at hp1
    exact rows_key_props df groupCol (groupKeys df (colIndex df.cols groupCol))
      hkp.1 hkp.2.1 hkp.2.2.1
      (fun k => [k, Cell.num (PyNum.ofInt (countKey df (colIndex df.cols groupCol) k))])
      (fun _ => rfl) _ hp1
  · rw [hceq]
    exact sorted_map_of_sorted
      (fun p : Cell × Nat => [p.1, Cell.num (PyNum.ofInt p.2)])
      (fun p q hpq => ofInt_ple_of_le hpq)
      (((groupKeys df (colIndex df.cols groupCol)).map
        (fun k => (k, countKey df (colIndex df.cols groupCol) k))).insertionSort byCountDesc)
      (List.sorted_insertionSort byCountDesc _)
  · rw [hpeq]
    have hp2 := (List.perm_insertionSort byPctDesc
      ((groupKeys df (colIndex df.cols groupCol)).map
        (fun k => (k, countKey df (colIndex df.cols groupCol) k,
          (((PyNum.ofInt (countKey df (colIndex df.cols groupCol) k)).divNat
              df.rows.length).mulNat 100).round2)))).map
      (fun p : Cell × Nat × PyNum => [p.1, Cell.num (PyNum.ofInt p.2.1), Cell.num p.2.2])
    rw [List.map_map] at hp2
    exact rows_key_props df groupCol (groupKeys df (colIndex df.cols groupCol))
      hkp.1 hkp.2.1 hkp.2.2.1
      (fun k => [k, Cell.num (PyNum.ofInt (countKey df (colIndex df.cols groupCol) k)),
        Cell.num ((((PyNum.ofInt (countKey df (colIndex df.cols groupCol) k)).divNat
          df.rows.length).mulNat 100).round2)])
      (fun _ => rfl) _ hp2
  · rw [hpeq]
    exact sorted_map_of_sorted
      (fun p : Cell × Nat × PyNum => [p.1, Cell.num (PyNum.ofInt p.2.1), Cell.num p.2.2])
      (fun p q hpq => hpq)
      (((groupKeys df (colIndex df.cols groupCol)).map
        (fun k => (k, countKey df (colIndex df.cols groupCol) k,
          (((PyNum.ofInt (countKey df (colIndex df.cols groupCol) k)).divNat
            df.rows.length).mulNat 100).round2))).insertionSort byPctDesc)
      (List.sorted_insertionSort byPctDesc _)
  · intro hne hnotin
    have hsne : applyGrouping df groupCol "sum" =
        (if (numericColIdxs df).isEmpty then
          countTableAsc df groupCol (colIndex df.cols groupCol)
         else if (numericColIdxs df).any (fun i => i == colIndex df.cols groupCol) then df
         else ⟨groupCol :: (numericColIdxs df).map (fun i => df.cols.getD i ""),
           (groupKeys df (colIndex df.cols groupCol)).map (fun k =>
             k :: (numericColIdxs df).map (fun i =>
               Cell.num (sumCells ((groupRows df (colIndex df.cols groupCol) k).map
                 (fun r => cellNum (cellAt r i))))))⟩) := rfl
    have hie : (numericColIdxs df).isEmpty = false := by
      cases hh : numericColIdxs df with
      | nil => exact absurd hh hne
      | cons a l => rfl
    have hany : (numericColIdxs df).any (fun i => i == colIndex df.cols groupCol) = false := by
      cases hh : (numericColIdxs df).any (fun i => i == colIndex df.cols groupCol) with
      | false => rfl
      | true =>
        rcases List.any_eq_true.1 hh with ⟨i, hi, hbeq⟩
        exact absurd (eq_of_beq hbeq ▸ hi) hnotin
    rw [hsne, hie, hany, if_neg Bool.false_ne_true, if_neg Bool.false_ne_true]
    constructor
    · exact rows_key_props df groupCol (groupKeys df (colIndex df.cols groupCol))
        hkp.1 hkp.2.1 hkp.2.2.1
        (fun k => k :: (numericColIdxs df).map (fun i =>
          Cell.num (sumCells ((groupRows df (colIndex df.cols groupCol) k).map
            (fun r => cellNum (cellAt r i))))))
        (fun _ => rfl) _ (List.Perm.refl _)
    · exact sorted_map_of_sorted
        (fun k => k :: (numericColIdxs df).map (fun i =>
          Cell.num (sumCells ((groupRows df (colIndex df.cols groupCol) k).map
            (fun r => cellNum (cellAt r i))))))
        (fun a b hab => hab) (groupKeys df (colIndex df.cols groupCol)) hkp.2.2.2
  · intro hne hnotin
    have hane : applyGrouping df groupCol "average" =
        (if (numericColIdxs df).isEmpty then
          countTableAsc df groupCol (colIndex df.cols groupCol)
         else if (numericColIdxs df).any (fun i => i == colIndex df.cols groupCol) then df
         else ⟨groupCol :: (numericColIdxs df).map (fun i => df.cols.getD i ""),
           (groupKeys df (colIndex df.cols groupCol)).map (fun k =>
             k :: (numericColIdxs df).map (fun i =>
               Cell.num (meanCells ((groupRows df (colIndex df.cols groupCol) k).map
                 (fun r => cellNum (cellAt r i))))))⟩) := rfl
    have hie : (numericColIdxs df).isEmpty = false := by
      cases hh : numericColIdxs df with
      | nil => exact absurd hh hne
      | cons a l => rfl
    have hany : (numericColIdxs df).any (fun i => i == colIndex df.cols groupCol) = false := by
      cases hh : (numericColIdxs df).any (fun i => i == colIndex df.cols groupCol) with
      | false => rfl
      | true =>
        rcases List.any_eq_true.1 hh with ⟨i, hi, hbeq⟩
        exact absurd (eq_of_beq hbeq ▸ hi) hnotin
    rw [hane, hie, hany, if_neg Bool.false_ne_true, if_neg Bool.false_ne_true]
    constructor
    · exact rows_key_props df groupCol (groupKeys df (colIndex df.cols groupCol))
        hkp.1 hkp.2.1 hkp.2.2.1
        (fun k => k :: (numericColIdxs df).map (fun i =>
          Cell.num (meanCells ((groupRows df (colIndex df.cols groupCol) k).map
            (fun r => cellNum (cellAt r i))))))
        (fun _ => rfl) _ (List.Perm.refl _)
    · exact sorted_map_of_sorted
        (fun k => k :: (numericColIdxs df).map (fun i =>
          Cell.num (meanCells ((groupRows df (colIndex df.cols groupCol) k).map
            (fun r => cellNum (cellAt r i))))))
        (fun a b hab => hab) (groupKeys df (colIndex df.cols groupCol)) hkp.2.2.2

theorem C6_grouping_witness :
    numericColIdxs ⟨["g", "x"], [[Cell.str "a", Cell.num (PyNum.ofInt 1)],
      [Cell.str "b", Cell.num (PyNum.ofInt 5)]]⟩ ≠ [] ∧
    colIndex ["g", "x"] "g" ∉ numericColIdxs ⟨["g", "x"],
      [[Cell.str "a", Cell.num (PyNum.ofInt 1)],
       [Cell.str "b", Cell.num (PyNum.ofInt 5)]]⟩ ∧
    List.Sorted (fun r1 r2 => keyAsc (cellAt r1 0) (cellAt r2 0))
      (applyGrouping ⟨["g", "x"], [[Cell.str "a", Cell.num (PyNum.ofInt 1)],
        [Cell.str "b", Cell.num (PyNum.ofInt 5)]]⟩ "g" "sum").rows :=
  ⟨by decide, by decide,
    ((C6_grouping ⟨["g", "x"], [[Cell.str "a", Cell.num (PyNum.ofInt 1)],
      [Cell.str "b", Cell.num (PyNum.ofInt 5)]]⟩ "g").2.2.1
      (by decide) (by decide)).2⟩

/-- C6 counterexample: grouping the frame with columns ["g", "x"] and
rows [["a", 1], ["b", 5]] by "g" with aggregation "sum" does produce
one row per group, but the rows come out ascending by group key
(["a", 1] before ["b", 5]), not descending by the aggregated sum in
column 1 as the claim requires (5 before 1). -/
theorem C6_counterexample :
    (applyGrouping ⟨["g", "x"], [[Cell.str "a", Cell.num (PyNum.ofInt 1)],
       [Cell.str "b", Cell.num (PyNum.ofInt 5)]]⟩ "g" "sum").rows.length = 2 ∧
    ¬ List.Sorted (fun r1 r2 => (cellNum (cellAt r2 1)).ple (cellNum (cellAt r1 1)))
      (applyGrouping ⟨["g", "x"], [[Cell.str "a", Cell.num (PyNum.ofInt 1)],
        [Cell.str "b", Cell.num (PyNum.ofInt 5)]]⟩ "g" "sum").rows := by
  constructor
  · rfl
  · decide
